import Mathlib

/-!
Verification of the triple-graph synchronization engine and iteration
dispatcher of `torch/distributed/_spmd/iter_graph_module.py`.

The embedding is a shallow one:

* an `fx.Node` is identified by a natural-number id; its payload
  (`NodeData`) keeps the node's op kind, target, flattened positional
  arguments, and the keys of its `users` dictionary in insertion order;
* an `fx.Graph` is the ordered association list of its nodes
  (`Graph := List (Nat × NodeData)`); the output node's `args` are stored
  as the flat list of graph results;
* the `IterGraph` engine state (`IterG`) carries the three graph arenas,
  the two correspondence maps (`_setup_mapping` / `_cleanup_mapping` as
  association lists), the freeze flag, the cross-iteration block counter,
  `num_extra_output`, and a fresh-id supply used whenever a Python call
  would allocate a new node object;
* the `IterGraphModule` dispatcher is a small record (`Dispatcher`) over
  an abstract value type, with each compiled graph abstracted as a
  function from positional arguments to a tuple-or-single result.

Mirrored primitives additionally return the list of graphs they touched,
in the order the underlying `fx.Graph` operations run in the source.
-/

namespace IterGraphModel

deriving instance DecidableEq for Except

/-- Which of the three graphs an underlying `fx.Graph` operation ran on. -/
inductive GraphTag
  | setup
  | steady
  | cleanup
deriving DecidableEq, Repr

/-! ## The iteration dispatcher (`IterGraphModule`) -/

/-- The result of executing a compiled graph: either a tuple of values or a
single bare value (`IterGraphModule._run` checks `isinstance(output, tuple)`). -/
inductive ExecOut (α : Type)
  | tup (l : List α)
  | single (a : α)
deriving DecidableEq, Repr

/-- The mutable dispatcher state of `IterGraphModule`: `_iter`,
`_max_iters`, and `_previous_output`. -/
structure Dispatcher (α : Type) where
  iter : Nat
  maxIters : Nat
  previousOutput : List α
deriving DecidableEq, Repr

/-- Errors surfaced by the dispatcher (failed `assert`s in `_run`,
`ValueError` in `setup`). -/
inductive RunErr
  | assertNotTuple
  | assertNumActual
  | badMaxIters
deriving DecidableEq, Repr

/-- `IterGraphModule.setup(max_iters)`: rejects a non-positive bound,
otherwise resets `_iter` to 0 and stores the bound (`_previous_output`
is left as it is). -/
def moduleSetup (α : Type) (d : Dispatcher α) (maxIters : Nat) :
    Except RunErr (Dispatcher α) :=
  if maxIters ≤ 0 then .error .badMaxIters
  else .ok { d with iter := 0, maxIters := maxIters }

/-- `IterGraphModule._run(gm, *args)`.  `numExtra` is
`self.main_gm.graph.num_extra_output`; `exec` abstracts the call
`gm(*new_args)`; the dispatcher state is the state after `forward`'s
increment of `_iter`.  When `numExtra > 0` the retained
`_previous_output` is appended to the arguments; the raw result is split
only when `_iter < _max_iters`. -/
def moduleRun {α : Type} (numExtra : Nat) (d : Dispatcher α)
    (exec : List α → ExecOut α) (args : List α) :
    Dispatcher α × Except RunErr (ExecOut α) :=
  if 0 < numExtra then
    let newArgs := args ++ d.previousOutput
    let output := exec newArgs
    if d.iter < d.maxIters then
      match output with
      | .single _ => (d, .error .assertNotTuple)
      | .tup l =>
        if numExtra < l.length then
          let numActual := l.length - numExtra
          ({ d with previousOutput := l.drop numActual },
            .ok (match l.take numActual with
                 | [a] => .single a
                 | r => .tup r))
        else (d, .error .assertNumActual)
    else (d, .ok output)
  else (d, .ok (exec args))

/-- The routing in `IterGraphModule.forward`: `_iter == 1` selects the
setup graph (checked first), `_iter == _max_iters` the cleanup graph,
anything else the main (steady) graph. -/
def selectTag (iter maxIters : Nat) : GraphTag :=
  if iter = 1 then .setup
  else if iter = maxIters then .cleanup
  else .steady

/-- `IterGraphModule.forward(*args)`: increments `_iter`, selects the
graph per `selectTag`, and delegates to `_run`. -/
def moduleForward {α : Type} (numExtra : Nat) (d : Dispatcher α)
    (execs : GraphTag → List α → ExecOut α) (args : List α) :
    Dispatcher α × GraphTag × Except RunErr (ExecOut α) :=
  let d1 := { d with iter := d.iter + 1 }
  let tag := selectTag d1.iter d1.maxIters
  let r := moduleRun numExtra d1 (execs tag) args
  (r.1, tag, r.2)

/-- The graph tags selected by a sequence of `forward` calls, one entry of
`argsList` per call. -/
def callSequenceTags {α : Type} (numExtra : Nat)
    (execs : GraphTag → List α → ExecOut α) :
    Dispatcher α → List (List α) → List GraphTag
  | _, [] => []
  | d, args :: rest =>
    let r := moduleForward numExtra d execs args
    r.2.1 :: callSequenceTags numExtra execs r.1 rest

/-! ## The fx graph model -/

/-- A flattened positional argument of a node: another node, a non-node
constant, or Python `None` (also produced when `_lookup_node` misses
during `tree_map` translation). -/
inductive Arg
  | node (id : Nat)
  | lit (v : Int)
  | noneArg
deriving DecidableEq, Repr

/-- A key of a node's `users` dictionary: a user node or the `"__hold__"`
sentinel string. -/
inductive UserKey
  | node (id : Nat)
  | hold
deriving DecidableEq, Repr

/-- The target of a node: a callable (abstracted by a number), a string
(placeholder names and the `"output"` sentinel of output nodes), or — as
produced by the frozen branch of `IterGraph.output`, which passes the
result to `super().placeholder` — a result tuple standing for a
placeholder name. -/
inductive Target
  | fn (f : Nat)
  | str (s : String)
  | result (l : List Arg)
deriving DecidableEq, Repr

/-- The `op` of an fx node, as far as this subsystem inspects it. -/
inductive Opk
  | placeholder
  | callFunction
  | output
deriving DecidableEq, Repr

/-- The payload of one fx node: op kind, target, flattened positional
arguments (the leaves of `tree_flatten((args, kwargs))`), and the keys of
the `users` dictionary in insertion order. -/
structure NodeData where
  op : Opk
  target : Target
  args : List Arg
  users : List UserKey
deriving DecidableEq, Repr

/-- A graph arena: the ordered node list, keyed by node id. -/
abbrev Graph := List (Nat × NodeData)

/-- The node ids of a graph, in sequence order. -/
def keys (g : Graph) : List Nat := g.map (·.1)

/-- First-match association-list lookup (Python dict lookup; keys are
never legitimately duplicated). -/
def lookupAssoc {β : Type} (l : List (Nat × β)) (k : Nat) : Option β :=
  match l.find? (fun p => p.1 == k) with
  | some p => some p.2
  | none => none

/-- The node-valued entries of an argument list, in order. -/
def argNodes (args : List Arg) : List Nat :=
  args.filterMap (fun a => match a with | .node i => some i | _ => none)

/-- Add `u` to the `users` dictionary of node `p`: a no-op when the key is
already present (dict-key assignment) or when `p` is not in the arena
(the Python object then lives outside the graph and is unobservable). -/
def addUser (g : Graph) (p : Nat) (u : UserKey) : Graph :=
  g.map (fun e =>
    if e.1 = p then
      (e.1, { e.2 with users :=
        if u ∈ e.2.users then e.2.users else e.2.users ++ [u] })
    else e)

/-- Remove `u` from the `users` dictionary of node `p`. -/
def removeUser (g : Graph) (p : Nat) (u : UserKey) : Graph :=
  g.map (fun e =>
    if e.1 = p then (e.1, { e.2 with users := e.2.users.filter (· ≠ u) })
    else e)

/-- Overwrite the `users` dictionary of node `p` (direct mutation of
`node.users`, as done inside `_forward_subgraph_inputs`). -/
def setUsers (g : Graph) (p : Nat) (us : List UserKey) : Graph :=
  g.map (fun e => if e.1 = p then (e.1, { e.2 with users := us }) else e)

/-- Insert an entry immediately before the node `anchor`; appends at the
end when the anchor is absent. -/
def insertBeforeId (g : Graph) (anchor : Nat) (entry : Nat × NodeData) :
    Graph :=
  match g with
  | [] => [entry]
  | e :: rest =>
    if e.1 = anchor then entry :: e :: rest
    else e :: insertBeforeId rest anchor entry

/-- Insert an entry immediately after the node `anchor`; appends at the
end when the anchor is absent. -/
def insertAfterId (g : Graph) (anchor : Nat) (entry : Nat × NodeData) :
    Graph :=
  match g with
  | [] => [entry]
  | e :: rest =>
    if e.1 = anchor then e :: entry :: rest
    else e :: insertAfterId rest anchor entry

/-- Create a node: place it at the requested position (`none` = append at
the end, fx's default insertion point) and register it in the `users`
dictionary of every node-valued argument. -/
def fxNewNode (g : Graph) (pos : Option Nat) (id : Nat) (op : Opk)
    (target : Target) (args : List Arg) : Graph :=
  let entry := (id, ⟨op, target, args, []⟩)
  let g1 := match pos with
    | none => g ++ [entry]
    | some anchor => insertBeforeId g anchor entry
  (argNodes args).foldl (fun h a => addUser h a (.node id)) g1

/-- The error conditions of the engine (Python exceptions and failed
`assert`s). -/
inductive EngineErr
  | hasUsers
  | notInGraph
  | assertFail
  | frozenErr
  | validationErr
  | movedUsers
  | noEnoughInputs
  | unusedNodes
  | typeError
deriving DecidableEq, Repr

/-- `fx.Graph.erase_node`: refuses while the node still has users; removes
the node from the sequence and unregisters it from the `users` dictionary
of each of its node-valued arguments. -/
def fxEraseNode (g : Graph) (id : Nat) : Except EngineErr Graph :=
  match lookupAssoc g id with
  | none => .error .notInGraph
  | some d =>
    if d.users ≠ [] then .error .hasUsers
    else
      let g1 := g.filter (fun e => e.1 ≠ id)
      .ok ((argNodes d.args).foldl (fun h a => removeUser h a (.node id)) g1)

/-- `fx.Graph.output(result)`: appends the terminal output node, whose
`args` hold the flat list of graph results. -/
def fxOutput (g : Graph) (id : Nat) (result : List Arg) : Graph :=
  fxNewNode g none id .output (.str "output") result

/-- `IterGraph._find_output`: the last node whose target is `"output"`. -/
def findOutput (g : Graph) : Option Nat :=
  match g.reverse.find? (fun e => e.2.target == Target.str "output") with
  | some e => some e.1
  | none => none

/-- fx's `node.args` setter: replace the argument list and keep the
`users` dictionaries in step — producers no longer referenced lose this
user, newly referenced producers gain it. -/
def fxSetArgs (g : Graph) (id : Nat) (newArgs : List Arg) : Graph :=
  match lookupAssoc g id with
  | none => g
  | some d =>
    let g1 := g.map (fun e =>
      if e.1 = id then (e.1, { e.2 with args := newArgs }) else e)
    let g2 := (argNodes d.args).foldl
      (fun h a =>
        if a ∈ argNodes newArgs then h else removeUser h a (.node id)) g1
    (argNodes newArgs).foldl (fun h a => addUser h a (.node id)) g2

/-- `fx.Node.prepend` seen from the anchor: move node `n` immediately
before `anchor` in the sequence. -/
def moveNodeBefore (g : Graph) (anchor n : Nat) : Graph :=
  match lookupAssoc g n with
  | none => g
  | some d => insertBeforeId (g.filter (fun e => e.1 ≠ n)) anchor (n, d)

/-- `fx.Node.append` seen from the anchor: move node `n` immediately
after `anchor` in the sequence. -/
def moveNodeAfter (g : Graph) (anchor n : Nat) : Graph :=
  match lookupAssoc g n with
  | none => g
  | some d => insertAfterId (g.filter (fun e => e.1 ≠ n)) anchor (n, d)

/-! ## The `IterGraph` engine state and its mirrored primitives -/

/-- The `IterGraph` state: the three graph arenas, the two correspondence
maps (`_setup_mapping`, `_cleanup_mapping`), the freeze flag, the
cross-iteration block counter, `num_extra_output`, and a strictly
increasing fresh-id supply standing for Python object allocation. -/
structure IterG where
  setupG : Graph
  steadyG : Graph
  cleanupG : Graph
  setupMap : List (Nat × Nat)
  cleanupMap : List (Nat × Nat)
  frozen : Bool
  crossIterBlockCount : Nat
  numExtraOutput : Nat
  fresh : Nat
deriving DecidableEq, Repr

/-- `IterGraph._lookup_node` restricted to a satellite map: `tree_map`
translation of one argument, sending an unmapped node to `None`. -/
def translateArg (m : List (Nat × Nat)) : Arg → Arg
  | .node i =>
    match lookupAssoc m i with
    | some j => .node j
    | none => .noneArg
  | a => a

/-- `IterGraph.call_function` (frozen: steady only; otherwise the setup
node is created first, the main node second, the cleanup node third, and
the correspondence is recorded).  Returns the new state, the per-graph
trace of underlying creations in execution order, and the main node id. -/
def IterG.call_function (s : IterG) (t : Target) (args : List Arg) :
    IterG × List GraphTag × Nat :=
  if s.frozen then
    let id := s.fresh
    ({ s with steadyG := fxNewNode s.steadyG none id .callFunction t args,
              fresh := id + 1 },
     [.steady], id)
  else
    let setupArgs := args.map (translateArg s.setupMap)
    let cleanupArgs := args.map (translateArg s.cleanupMap)
    let sid := s.fresh
    let mid := s.fresh + 1
    let cid := s.fresh + 2
    let g1 := fxNewNode s.setupG none sid .callFunction t setupArgs
    let g2 := fxNewNode s.steadyG none mid .callFunction t args
    let g3 := fxNewNode s.cleanupG none cid .callFunction t cleanupArgs
    ({ s with setupG := g1, steadyG := g2, cleanupG := g3,
              setupMap := (mid, sid) :: s.setupMap,
              cleanupMap := (mid, cid) :: s.cleanupMap,
              fresh := s.fresh + 3 },
     [.setup, .steady, .cleanup], mid)

/-- `IterGraph.erase_node` (frozen: steady only; otherwise erase from the
setup graph first — asserting the counterpart exists — then the steady
graph, then the cleanup graph; the correspondence maps are not touched).
A graph already mutated when a later step raises stays mutated. -/
def IterG.erase_node (s : IterG) (n : Nat) :
    IterG × List GraphTag × Option EngineErr :=
  if s.frozen then
    match fxEraseNode s.steadyG n with
    | .ok g => ({ s with steadyG := g }, [.steady], none)
    | .error e => (s, [], some e)
  else
    match lookupAssoc s.setupMap n with
    | none => (s, [], some .assertFail)
    | some sn =>
      match fxEraseNode s.setupG sn with
      | .error e => (s, [], some e)
      | .ok g1 =>
        let s1 := { s with setupG := g1 }
        match fxEraseNode s1.steadyG n with
        | .error e => (s1, [.setup], some e)
        | .ok g2 =>
          let s2 := { s1 with steadyG := g2 }
          match lookupAssoc s.cleanupMap n with
          | none => (s2, [.setup, .steady], some .assertFail)
          | some cn =>
            match fxEraseNode s2.cleanupG cn with
            | .error e => (s2, [.setup, .steady], some e)
            | .ok g3 =>
              ({ s2 with cleanupG := g3 },
               [.setup, .steady, .cleanup], none)

/-- `IterGraph.placeholder` (frozen: steady only; otherwise the main
placeholder is created first, then setup, then cleanup, and the
correspondence is recorded). -/
def IterG.placeholder (s : IterG) (name : String) : IterG × List GraphTag :=
  if s.frozen then
    ({ s with
        steadyG := fxNewNode s.steadyG none s.fresh .placeholder (.str name) [],
        fresh := s.fresh + 1 },
     [.steady])
  else
    let mid := s.fresh
    let sid := s.fresh + 1
    let cid := s.fresh + 2
    let g2 := fxNewNode s.steadyG none mid .placeholder (.str name) []
    let g1 := fxNewNode s.setupG none sid .placeholder (.str name) []
    let g3 := fxNewNode s.cleanupG none cid .placeholder (.str name) []
    ({ s with steadyG := g2, setupG := g1, cleanupG := g3,
              setupMap := (mid, sid) :: s.setupMap,
              cleanupMap := (mid, cid) :: s.cleanupMap,
              fresh := s.fresh + 3 },
     [.steady, .setup, .cleanup])

/-- `IterGraph.output` (frozen: the source calls `super().placeholder`
with the result in the name position, so a placeholder node is appended to
the steady graph; otherwise the main output is written first, then the
translated setup and cleanup outputs). -/
def IterG.output (s : IterG) (result : List Arg) : IterG × List GraphTag :=
  if s.frozen then
    ({ s with
        steadyG := fxNewNode s.steadyG none s.fresh .placeholder
          (.result result) [],
        fresh := s.fresh + 1 },
     [.steady])
  else
    let g2 := fxOutput s.steadyG s.fresh result
    let setupResult := result.map (translateArg s.setupMap)
    let cleanupResult := result.map (translateArg s.cleanupMap)
    let g1 := fxOutput s.setupG (s.fresh + 1) setupResult
    let g3 := fxOutput s.cleanupG (s.fresh + 2) cleanupResult
    ({ s with steadyG := g2, setupG := g1, cleanupG := g3,
              fresh := s.fresh + 3 },
     [.steady, .setup, .cleanup])

/-- `IterGraph.node_prepend` (frozen: steady only; otherwise mirrored over
setup, cleanup, steady in `_all_graphs` order, asserting counterparts). -/
def IterG.node_prepend (s : IterG) (targetNode n : Nat) :
    IterG × Option EngineErr :=
  if s.frozen then
    ({ s with steadyG := moveNodeBefore s.steadyG targetNode n }, none)
  else
    match lookupAssoc s.setupMap n, lookupAssoc s.setupMap targetNode,
          lookupAssoc s.cleanupMap n, lookupAssoc s.cleanupMap targetNode with
    | some sn, some st, some cn, some ct =>
      ({ s with setupG := moveNodeBefore s.setupG st sn,
                cleanupG := moveNodeBefore s.cleanupG ct cn,
                steadyG := moveNodeBefore s.steadyG targetNode n }, none)
    | _, _, _, _ => (s, some .assertFail)

/-- `IterGraph.node_append` (frozen: steady only; otherwise mirrored). -/
def IterG.node_append (s : IterG) (targetNode n : Nat) :
    IterG × Option EngineErr :=
  if s.frozen then
    ({ s with steadyG := moveNodeAfter s.steadyG targetNode n }, none)
  else
    match lookupAssoc s.setupMap n, lookupAssoc s.setupMap targetNode,
          lookupAssoc s.cleanupMap n, lookupAssoc s.cleanupMap targetNode with
    | some sn, some st, some cn, some ct =>
      ({ s with setupG := moveNodeAfter s.setupG st sn,
                cleanupG := moveNodeAfter s.cleanupG ct cn,
                steadyG := moveNodeAfter s.steadyG targetNode n }, none)
    | _, _, _, _ => (s, some .assertFail)

/-- `fx.Node.update_arg(idx, arg)`: out-of-range indexing raises before
any mutation. -/
def fxUpdateArg (g : Graph) (n : Nat) (idx : Nat) (a : Arg) :
    Graph × Option EngineErr :=
  match lookupAssoc g n with
  | none => (g, some .notInGraph)
  | some d =>
    if idx < d.args.length then (fxSetArgs g n (d.args.set idx a), none)
    else (g, some .typeError)

/-- `IterGraph.node_update_arg` (frozen: the source calls
`node.update_arg(int, arg)`, passing the builtin `int` as the index, which
raises `TypeError` before mutating anything; otherwise mirrored over
setup, steady, cleanup with translated arguments). -/
def IterG.node_update_arg (s : IterG) (n : Nat) (idx : Nat) (a : Arg) :
    IterG × Option EngineErr :=
  if s.frozen then
    (s, some .typeError)
  else
    match lookupAssoc s.setupMap n, lookupAssoc s.cleanupMap n with
    | some sn, some cn =>
      let r1 := fxUpdateArg s.setupG sn idx (translateArg s.setupMap a)
      match r1.2 with
      | some e => ({ s with setupG := r1.1 }, some e)
      | none =>
        let r2 := fxUpdateArg s.steadyG n idx a
        match r2.2 with
        | some e => ({ s with setupG := r1.1, steadyG := r2.1 }, some e)
        | none =>
          let r3 := fxUpdateArg s.cleanupG cn idx (translateArg s.cleanupMap a)
          ({ s with setupG := r1.1, steadyG := r2.1, cleanupG := r3.1 }, r3.2)
    | _, _ => (s, some .assertFail)

/-- `IterGraph.freeze_cross_iter_movement`. -/
def IterG.freeze_cross_iter_movement (s : IterG) : IterG :=
  { s with frozen := true }

/-! ## The cross-iteration move algorithm -/

/-- `IterGraph._is_connect_to_output`: every user of every block node is
itself in the block, is the graph output, or is a non-node sentinel. -/
def isConnectToOutput (g : Graph) (sub : List Nat) (outId : Option Nat) :
    Bool :=
  sub.all (fun n =>
    match lookupAssoc g n with
    | none => true
    | some d =>
      d.users.all (fun u =>
        match u with
        | .hold => true
        | .node uid => sub.contains uid || outId == some uid))

/-- Lines 179–186 of `_forward_subgraph_inputs`: the node-valued inputs of
the block that are produced outside the block, in traversal order, one
occurrence per consuming reference (no deduplication). -/
def externalInputs (g : Graph) (sub : List Nat) : List Nat :=
  sub.foldl (fun acc n =>
    match lookupAssoc g n with
    | none => acc
    | some d => acc ++ (argNodes d.args).filter (fun i => ¬ sub.contains i))
    []

/-- The erase loop of `_forward_subgraph_inputs` (`erase_node=True`),
walking the block in reverse: a node whose sole user is the output node
(and which is not itself in the new output tuple) has that edge cleared;
edges to already-erased nodes are dropped; any remaining user aborts with
`RuntimeError`, keeping the mutations made so far. -/
def subgraphEraseLoop (newOutput : List Arg) (outId : Nat) :
    Graph → List Nat → List Nat → Graph × Option EngineErr
  | g, _, [] => (g, none)
  | g, erased, n :: rest =>
    match lookupAssoc g n with
    | none => (g, some .notInGraph)
    | some d =>
      let users1 :=
        match d.users with
        | [key] =>
          match key with
          | .node k =>
            if ¬ newOutput.contains (Arg.node k) ∧ k = outId then []
            else [key]
          | .hold => [key]
        | us => us
      let users2 := users1.filter (fun u =>
        match u with
        | .node k => ¬ erased.contains k
        | .hold => true)
      let g1 := setUsers g n users2
      if users2 ≠ [] then (g1, some .movedUsers)
      else
        match fxEraseNode g1 n with
        | .error e => (g1, some e)
        | .ok g2 => subgraphEraseLoop newOutput outId g2 (n :: erased) rest

/-- `IterGraph._forward_subgraph_inputs(subgraph, graph, erase_node)`:
append the block's external inputs to the graph's output tuple (erasing
the block first when requested) and return their count.  Also threads the
fresh-id supply used by the rebuilt output node. -/
def forwardSubgraphInputs (g : Graph) (sub : List Nat) (eraseFlag : Bool)
    (fresh : Nat) : Graph × Nat × Except EngineErr Nat :=
  match findOutput g with
  | none => (g, fresh, .error .assertFail)
  | some outId =>
    match lookupAssoc g outId with
    | none => (g, fresh, .error .assertFail)
    | some outData =>
      let inputs := externalInputs g sub
      let newOutput := outData.args ++ inputs.map Arg.node
      let r :=
        if eraseFlag then subgraphEraseLoop newOutput outId g [] sub.reverse
        else (g, none)
      match r.2 with
      | some e => (r.1, fresh, .error e)
      | none =>
        match fxEraseNode r.1 outId with
        | .error e => (r.1, fresh, .error e)
        | .ok g2 => (fxOutput g2 fresh newOutput, fresh + 1, .ok inputs.length)

/-- The `last_placeholder` scan of `_forward_inputs_to_subgraph`: the last
node of the graph's leading run of placeholders. -/
def lastPlaceholder : Graph → Option Nat
  | [] => none
  | (n, d) :: rest =>
    if d.op == Opk.placeholder then
      match lastPlaceholder rest with
      | some m => some m
      | none => some n
    else none

/-- The new `cross_iter_input_{blockCount}_{i}` placeholders, inserted
immediately after the last existing placeholder.  The source inserts them
for `i` in `reversed(range(extra))`, each directly after the anchor, so
they end up in increasing-`i` order; the consumption order (the reversed
iterator) is also increasing `i`. -/
def insertPlaceholdersAfter (g : Graph) (p : Nat) (blockCount : Nat)
    (fresh : Nat) (extra : Nat) : Graph × List Nat :=
  let ids := (List.range extra).map (fun i => fresh + i)
  let entries : List (Nat × NodeData) := (List.range extra).map (fun i =>
    (fresh + i,
     ⟨.placeholder,
      .str ("cross_iter_input_" ++ toString blockCount ++ "_" ++ toString i),
      [], []⟩))
  (entries.reverse.foldl (fun h e => insertAfterId h p e) g, ids)

/-- One node's argument rewrite in `_forward_inputs_to_subgraph`: each
node-valued argument produced outside the block consumes the next new
placeholder; `none` when the placeholders run out (`StopIteration`). -/
def rewriteArgsAux (subSet : List Nat) :
    List Arg → List Nat → Option (List Arg × List Nat)
  | [], phs => some ([], phs)
  | a :: rest, phs =>
    match a with
    | .node i =>
      if subSet.contains i then
        match rewriteArgsAux subSet rest phs with
        | some (l, phs2) => some (.node i :: l, phs2)
        | none => none
      else
        match phs with
        | [] => none
        | p :: ptail =>
          match rewriteArgsAux subSet rest ptail with
          | some (l, phs2) => some (.node p :: l, phs2)
          | none => none
    | other =>
      match rewriteArgsAux subSet rest phs with
      | some (l, phs2) => some (other :: l, phs2)
      | none => none

/-- The per-node rewrite loop of `_forward_inputs_to_subgraph`; on
`StopIteration` the nodes already rewritten stay rewritten. -/
def rewriteLoop (subSet : List Nat) :
    Graph → List Nat → List Nat → Graph × List Nat × Option EngineErr
  | g, phs, [] => (g, phs, none)
  | g, phs, n :: rest =>
    match lookupAssoc g n with
    | none => (g, phs, some .assertFail)
    | some d =>
      match rewriteArgsAux subSet d.args phs with
      | none => (g, phs, some .noEnoughInputs)
      | some (newArgs, phs2) =>
        rewriteLoop subSet (fxSetArgs g n newArgs) phs2 rest

/-- `IterGraph._forward_inputs_to_subgraph(subgraph, graph, extra_input)`:
insert `extra_input` new placeholders after the graph's existing
placeholders and rewrite the block's external references to consume them
in order; fails when the counts do not match exactly. -/
def forwardInputsToSubgraph (g : Graph) (sub : List Nat) (extraInput : Nat)
    (blockCount : Nat) (fresh : Nat) : Graph × Nat × Option EngineErr :=
  match lastPlaceholder g with
  | none => (g, fresh, some .assertFail)
  | some p =>
    let ins := insertPlaceholdersAfter g p blockCount fresh extraInput
    let r := rewriteLoop sub ins.1 ins.2 sub
    match r.2.2 with
    | some e => (r.1, fresh + extraInput, some e)
    | none =>
      if r.2.1 ≠ [] then (r.1, fresh + extraInput, some .unusedNodes)
      else (r.1, fresh + extraInput, none)

/-- The clone's argument remap in `_clone_subgraph`: references to block
nodes go to the already-created clones (asserting the mapping has them,
which a topologically ordered block guarantees); external references keep
their producers. -/
def mapArgsThroughClones (allNodes : List Nat) (mapping : List (Nat × Nat)) :
    List Arg → Option (List Arg)
  | [] => some []
  | a :: rest =>
    let mapped : Option Arg :=
      match a with
      | .node i =>
        if allNodes.contains i then
          match lookupAssoc mapping i with
          | some j => some (.node j)
          | none => none
        else some (.node i)
      | other => some other
    match mapped, mapArgsThroughClones allNodes mapping rest with
    | some m, some l => some (m :: l)
    | _, _ => none

/-- The clone loop of `_clone_subgraph`: each block node is cloned as a
`call_function` node inserted before the target (the net effect of
creating the node and reassigning its remapped arguments). -/
def cloneLoop (allNodes : List Nat) (target : Nat) :
    Graph → List (Nat × Nat) → List Nat → Nat → List Nat →
    Graph × List Nat × Nat × Option EngineErr
  | g, _, clones, fresh, [] => (g, clones.reverse, fresh, none)
  | g, mapping, clones, fresh, n :: rest =>
    match lookupAssoc g n with
    | none => (g, clones.reverse, fresh, some .assertFail)
    | some d =>
      match mapArgsThroughClones allNodes mapping d.args with
      | none => (g, clones.reverse, fresh, some .assertFail)
      | some newArgs =>
        let g1 := fxNewNode g (some target) fresh .callFunction d.target
          newArgs
        cloneLoop allNodes target g1 ((n, fresh) :: mapping)
          (fresh :: clones) (fresh + 1) rest

/-- `IterGraph._clone_subgraph(subgraph, graph, target)`. -/
def cloneSubgraph (g : Graph) (sub : List Nat) (target : Nat)
    (fresh : Nat) : Graph × List Nat × Nat × Option EngineErr :=
  cloneLoop sub target g [] [] fresh sub

/-- Collect an all-or-nothing list of lookups (a Python list comprehension
whose `None` entries would fault when used). -/
def optionAll {β : Type} : List (Option β) → Option (List β)
  | [] => some []
  | none :: _ => none
  | some b :: rest =>
    match optionAll rest with
    | some l => some (b :: l)
    | none => none

/-- Step 4 of `move_to_next_iter_before`: nodes left with zero users get
the `"__hold__"` sentinel. -/
def holdMarkZeroUsers (g : Graph) : Graph :=
  g.map (fun e =>
    if e.2.users.length = 0 then (e.1, { e.2 with users := [.hold] })
    else e)

/-- `IterGraph.move_to_next_iter_before(subgraph, target_node)`, in the
source's exact order: freeze check, `_is_connect_to_output` validation
(raising before any mutation), block-counter increment, setup export with
erase, cleanup clone + import, steady export without erase, the
`main_extra_input == setup_extra_input` assertion, steady reposition +
import, hold marking, and the `num_extra_output` increment.  On an error
the state mutated so far is returned alongside it. -/
def IterG.move_to_next_iter_before (s : IterG) (sub : List Nat)
    (targetNode : Nat) : IterG × Option EngineErr :=
  if s.frozen then (s, some .frozenErr)
  else if ¬ isConnectToOutput s.steadyG sub (findOutput s.steadyG) then
    (s, some .validationErr)
  else
    let s1 := { s with crossIterBlockCount := s.crossIterBlockCount + 1 }
    match optionAll (sub.map (lookupAssoc s1.setupMap)) with
    | none => (s1, some .assertFail)
    | some setupSub =>
      let r1 := forwardSubgraphInputs s1.setupG setupSub true s1.fresh
      let s2 := { s1 with setupG := r1.1, fresh := r1.2.1 }
      match r1.2.2 with
      | .error e => (s2, some e)
      | .ok setupExtraInput =>
        match lookupAssoc s2.cleanupMap targetNode with
        | none => (s2, some .assertFail)
        | some targetCleanup =>
          match optionAll (sub.map (lookupAssoc s2.cleanupMap)) with
          | none => (s2, some .assertFail)
          | some cleanupSub =>
            let r2 := cloneSubgraph s2.cleanupG cleanupSub targetCleanup
              s2.fresh
            let s3 := { s2 with cleanupG := r2.1, fresh := r2.2.2.1 }
            match r2.2.2.2 with
            | some e => (s3, some e)
            | none =>
              let r3 := forwardInputsToSubgraph s3.cleanupG r2.2.1
                setupExtraInput s3.crossIterBlockCount s3.fresh
              let s4 := { s3 with cleanupG := r3.1, fresh := r3.2.1 }
              match r3.2.2 with
              | some e => (s4, some e)
              | none =>
                let r4 := forwardSubgraphInputs s4.steadyG sub false s4.fresh
                let s5 := { s4 with steadyG := r4.1, fresh := r4.2.1 }
                match r4.2.2 with
                | .error e => (s5, some e)
                | .ok mainExtraInput =>
                  if mainExtraInput = setupExtraInput then
                    let g5 := sub.foldl
                      (fun g n => moveNodeBefore g targetNode n) s5.steadyG
                    let s6 := { s5 with steadyG := g5 }
                    let r5 := forwardInputsToSubgraph s6.steadyG sub
                      mainExtraInput s6.crossIterBlockCount s6.fresh
                    let s7 := { s6 with steadyG := r5.1, fresh := r5.2.1 }
                    match r5.2.2 with
                    | some e => (s7, some e)
                    | none =>
                      ({ s7 with
                          cleanupG := holdMarkZeroUsers s7.cleanupG,
                          steadyG := holdMarkZeroUsers s7.steadyG,
                          numExtraOutput :=
                            s7.numExtraOutput + mainExtraInput },
                       none)
                  else (s5, some .assertFail)

/-! ## Concrete engines and projections used by examples -/

/-- The argument list of node `k` in `g` (the graph's output tuple when
`k` is the output node). -/
def nodeArgsAt (g : Graph) (k : Nat) : Option (List Arg) :=
  (lookupAssoc g k).map (fun d => d.args)

/-- A small unfrozen engine: a placeholder and a consumer node, in three
parallel copies with the construction-time correspondence. -/
def egEngine : IterG :=
  { setupG := [(10, ⟨.placeholder, .str "x", [], [.node 11]⟩),
               (11, ⟨.callFunction, .fn 1, [.node 10], []⟩)]
    steadyG := [(0, ⟨.placeholder, .str "x", [], [.node 1]⟩),
                (1, ⟨.callFunction, .fn 1, [.node 0], []⟩)]
    cleanupG := [(20, ⟨.placeholder, .str "x", [], [.node 21]⟩),
                 (21, ⟨.callFunction, .fn 1, [.node 20], []⟩)]
    setupMap := [(0, 10), (1, 11)]
    cleanupMap := [(0, 20), (1, 21)]
    frozen := false
    crossIterBlockCount := 0
    numExtraOutput := 0
    fresh := 100 }

/-- A small frozen engine whose graphs each end in an output node. -/
def frozenEngine : IterG :=
  { setupG := [(10, ⟨.placeholder, .str "x", [], [.node 11]⟩),
               (11, ⟨.output, .str "output", [.node 10], []⟩)]
    steadyG := [(0, ⟨.placeholder, .str "x", [], [.node 1]⟩),
                (1, ⟨.output, .str "output", [.node 0], []⟩)]
    cleanupG := [(20, ⟨.placeholder, .str "x", [], [.node 21]⟩),
                 (21, ⟨.output, .str "output", [.node 20], []⟩)]
    setupMap := [(0, 10), (1, 11)]
    cleanupMap := [(0, 20), (1, 21)]
    frozen := true
    crossIterBlockCount := 0
    numExtraOutput := 0
    fresh := 100 }

/-- A graph in which one node consumes the same external value twice:
`x`, `c = f(x, x)`, and the output returning `c`. -/
def dupGraph : Graph :=
  [(0, ⟨.placeholder, .str "x", [], [.node 1]⟩),
   (1, ⟨.callFunction, .fn 1, [.node 0, .node 0], [.node 2]⟩),
   (2, ⟨.output, .str "output", [.node 1], []⟩)]

/-- First-seen-order deduplication, the collection order the spec sentence
describes for the exported external-input list. -/
def firstSeenDedup : List Nat → List Nat
  | [] => []
  | a :: rest => a :: (firstSeenDedup rest).filter (fun b => b ≠ a)

/-- A diamond-shaped graph: `x`, `d = f₁(x)`, `c = f₂(x)`, and the output
returning `(d, c)`; `[c]` is a movable block (its only user is the
output). -/
def tripleGraph (off : Nat) : Graph :=
  [(off, ⟨.placeholder, .str "x", [], [.node (off+1), .node (off+2)]⟩),
   (off+1, ⟨.callFunction, .fn 1, [.node off], [.node (off+3)]⟩),
   (off+2, ⟨.callFunction, .fn 2, [.node off], [.node (off+3)]⟩),
   (off+3, ⟨.output, .str "output", [.node (off+1), .node (off+2)], []⟩)]

/-- An engine whose three graphs are copies of `tripleGraph`, paired by
construction order. -/
def moveEngine : IterG :=
  { setupG := tripleGraph 10
    steadyG := tripleGraph 0
    cleanupG := tripleGraph 20
    setupMap := [(0, 10), (1, 11), (2, 12), (3, 13)]
    cleanupMap := [(0, 20), (1, 21), (2, 22), (3, 23)]
    frozen := false
    crossIterBlockCount := 0
    numExtraOutput := 0
    fresh := 100 }

/-- A chain-shaped graph: `x`, `c = f₁(x)`, `d = f₂(c)`, output returning
`d`; the block `[c]` has the user `d`, which is neither in the block nor
the output. -/
def chainGraph (off : Nat) : Graph :=
  [(off, ⟨.placeholder, .str "x", [], [.node (off+1)]⟩),
   (off+1, ⟨.callFunction, .fn 1, [.node off], [.node (off+2)]⟩),
   (off+2, ⟨.callFunction, .fn 2, [.node (off+1)], [.node (off+3)]⟩),
   (off+3, ⟨.output, .str "output", [.node (off+2)], []⟩)]

/-- An engine whose three graphs are copies of `chainGraph`. -/
def chainEngine : IterG :=
  { setupG := chainGraph 10
    steadyG := chainGraph 0
    cleanupG := chainGraph 20
    setupMap := [(0, 10), (1, 11), (2, 12), (3, 13)]
    cleanupMap := [(0, 20), (1, 21), (2, 22), (3, 23)]
    frozen := false
    crossIterBlockCount := 0
    numExtraOutput := 0
    fresh := 100 }

/-! ## Construction and the structural-correspondence invariant -/

/-- Rename the node id inside an argument (deep-copy id translation). -/
def renameArgNode (off : Nat) : Arg → Arg
  | .node i => .node (i + off)
  | a => a

/-- Rename the node id inside a user key. -/
def renameUserKey (off : Nat) : UserKey → UserKey
  | .node i => .node (i + off)
  | .hold => .hold

/-- A deep copy of a node payload with every referenced id shifted. -/
def renameData (off : Nat) (d : NodeData) : NodeData :=
  { d with args := d.args.map (renameArgNode off),
           users := d.users.map (renameUserKey off) }

/-- A deep copy of a graph in a disjoint id space (the Python
`copy.deepcopy` of the satellite graphs allocates fresh node objects). -/
def renameGraph (off : Nat) (g : Graph) : Graph :=
  g.map (fun e => (e.1 + off, renameData off e.2))

/-- A freshly constructed engine over the graph `g0` (node ids below `B`):
the steady graph plus two structurally identical deep copies, with the
correspondence maps built by zipping the three graphs in construction
order, exactly as `IterGraph.__init__` does. -/
def initIterG (g0 : Graph) (B : Nat) : IterG :=
  { setupG := renameGraph B g0
    steadyG := g0
    cleanupG := renameGraph (2 * B) g0
    setupMap := g0.map (fun e => (e.1, e.1 + B))
    cleanupMap := g0.map (fun e => (e.1, e.1 + 2 * B))
    frozen := false
    crossIterBlockCount := 0
    numExtraOutput := 0
    fresh := 3 * B }

/-- The structural invariant maintained by the mirrored primitives while
the engine is not frozen: the key sequences of the three graphs are
duplicate-free, bounded by the fresh-id supply, and the steady key
sequence corresponds position-by-position with each satellite key
sequence through the respective correspondence map. -/
structure StructInv (s : IterG) : Prop where
  notFrozen : s.frozen = false
  steadyNodup : (keys s.steadyG).Nodup
  setupNodup : (keys s.setupG).Nodup
  cleanupNodup : (keys s.cleanupG).Nodup
  steadyBound : ∀ k ∈ keys s.steadyG, k < s.fresh
  setupBound : ∀ k ∈ keys s.setupG, k < s.fresh
  cleanupBound : ∀ k ∈ keys s.cleanupG, k < s.fresh
  setupCorr : List.Forall₂
    (fun a b => lookupAssoc s.setupMap a = some b)
    (keys s.steadyG) (keys s.setupG)
  cleanupCorr : List.Forall₂
    (fun a b => lookupAssoc s.cleanupMap a = some b)
    (keys s.steadyG) (keys s.cleanupG)

/-- One mirrored editing step: a node creation, a placeholder creation, or
a successful node erasure, through the engine's public primitives. -/
inductive MirrorStep : IterG → IterG → Prop
  | callFn (s : IterG) (t : Target) (args : List Arg) :
      MirrorStep s (s.call_function t args).1
  | ph (s : IterG) (name : String) :
      MirrorStep s (s.placeholder name).1
  | erase (s : IterG) (n : Nat) (hok : (s.erase_node n).2.2 = none) :
      MirrorStep s (s.erase_node n).1

/-- The engine states reachable from `s0` by mirrored editing steps. -/
def ReachableFrom (s0 s : IterG) : Prop :=
  Relation.ReflTransGen MirrorStep s0 s

/-- A one-node graph used to exercise the construction and a
create/erase sequence concretely. -/
def c1Base : Graph := [(0, ⟨.placeholder, .str "x", [], []⟩)]

/-! ## Dispatcher helper lemmas -/

theorem moduleRun_iter_maxIters {α : Type} (numExtra : Nat) (d : Dispatcher α)
    (exec : List α → ExecOut α) (args : List α) :
    (moduleRun numExtra d exec args).1.iter = d.iter ∧
      (moduleRun numExtra d exec args).1.maxIters = d.maxIters := by
  unfold moduleRun
  by_cases h1 : 0 < numExtra <;> simp [h1]
  by_cases h2 : d.iter < d.maxIters <;> simp [h2]
  cases exec (args ++ d.previousOutput) with
  | single a => simp
  | tup l =>
    by_cases h3 : numExtra < l.length <;> simp [h3]

theorem moduleForward_iter_maxIters {α : Type} (numExtra : Nat)
    (d : Dispatcher α) (execs : GraphTag → List α → ExecOut α)
    (args : List α) :
    (moduleForward numExtra d execs args).1.iter = d.iter + 1 ∧
      (moduleForward numExtra d execs args).1.maxIters = d.maxIters := by
  unfold moduleForward
  exact moduleRun_iter_maxIters numExtra { d with iter := d.iter + 1 } _ args

theorem moduleForward_tag {α : Type} (numExtra : Nat) (d : Dispatcher α)
    (execs : GraphTag → List α → ExecOut α) (args : List α) :
    (moduleForward numExtra d execs args).2.1
      = selectTag (d.iter + 1) d.maxIters := rfl

/-- Each call sequence routes call `j` (0-based position in the list) to
`selectTag (iter₀ + j + 1) maxIters`. -/
theorem callSequenceTags_eq {α : Type} (numExtra : Nat)
    (execs : GraphTag → List α → ExecOut α) (d : Dispatcher α)
    (argsList : List (List α)) :
    callSequenceTags numExtra execs d argsList
      = (List.range argsList.length).map
          (fun j => selectTag (d.iter + j + 1) d.maxIters) := by
  induction argsList generalizing d with
  | nil => simp [callSequenceTags]
  | cons args rest ih =>
    rw [callSequenceTags, ih]
    have hiter := (moduleForward_iter_maxIters numExtra d execs args).1
    have hmax := (moduleForward_iter_maxIters numExtra d execs args).2
    rw [hiter, hmax, moduleForward_tag]
    simp only [List.length_cons, List.range_succ_eq_map, List.map_cons,
      List.map_map]
    congr 1
    apply List.map_congr_left
    intro j _
    simp only [Function.comp]
    congr 1
    omega

/-- C8: after configuring the dispatcher with a bound `N > 1`, the `i`-th
call (1-based) executes the setup graph when `i = 1`, the steady graph when
`1 < i < N`, and the cleanup graph when `i = N`; in particular `N = 5` with
5 calls routes to (setup, steady, steady, steady, cleanup) in order, and
`N = 2` routes to (setup, cleanup). -/
theorem dispatcher_routing {α : Type} (numExtra : Nat)
    (execs : GraphTag → List α → ExecOut α) (prev : List α)
    (N i : Nat) (argsList : List (List α)) (hN : 1 < N) (hi : 1 ≤ i)
    (hiN : i ≤ N) (hlen : i ≤ argsList.length) :
    ((i = 1 →
        (callSequenceTags numExtra execs ⟨0, N, prev⟩ argsList).get? (i - 1)
          = some GraphTag.setup)
      ∧ (1 < i → i < N →
        (callSequenceTags numExtra execs ⟨0, N, prev⟩ argsList).get? (i - 1)
          = some GraphTag.steady)
      ∧ (i = N →
        (callSequenceTags numExtra execs ⟨0, N, prev⟩ argsList).get? (i - 1)
          = some GraphTag.cleanup))
    ∧ (∀ a1 a2 a3 a4 a5 : List α,
        callSequenceTags numExtra execs ⟨0, 5, prev⟩ [a1, a2, a3, a4, a5]
          = [GraphTag.setup, GraphTag.steady, GraphTag.steady,
             GraphTag.steady, GraphTag.cleanup])
    ∧ (∀ b1 b2 : List α,
        callSequenceTags numExtra execs ⟨0, 2, prev⟩ [b1, b2]
          = [GraphTag.setup, GraphTag.cleanup]) := by
  have hget : (callSequenceTags numExtra execs ⟨0, N, prev⟩ argsList).get? (i - 1)
      = some (selectTag i N) := by
    rw [callSequenceTags_eq]
    rw [List.get?_map, List.get?_range (by omega)]
    have harith : 0 + (i - 1) + 1 = i := by omega
    simp only [Option.map_some', harith]
  refine ⟨⟨?_, ?_, ?_⟩, ?_, ?_⟩
  · intro h1
    rw [hget]
    simp [selectTag, h1]
  · intro h1 h2
    rw [hget]
    have hne1 : i ≠ 1 := by omega
    have hneN : i ≠ N := by omega
    simp [selectTag, hne1, hneN]
  · intro h1
    rw [hget]
    have hne1 : i ≠ 1 := by omega
    have hN1 : N ≠ 1 := by omega
    simp [selectTag, hne1, h1, hN1]
  · intro a1 a2 a3 a4 a5
    rw [callSequenceTags_eq]
    simp [selectTag, List.range_succ]
  · intro b1 b2
    rw [callSequenceTags_eq]
    simp [selectTag, List.range_succ]

theorem dispatcher_routing_witness :
    (1 < 5 ∧ 1 ≤ 2 ∧ 2 ≤ 5
      ∧ 2 ≤ ([[], [], [], [], []] : List (List Nat)).length)
    ∧ (((2 = 1 →
        (callSequenceTags 0 (fun _ l => ExecOut.tup l)
            (⟨0, 5, []⟩ : Dispatcher Nat)
            [[], [], [], [], []]).get? (2 - 1) = some GraphTag.setup)
      ∧ (1 < 2 → 2 < 5 →
        (callSequenceTags 0 (fun _ l => ExecOut.tup l)
            (⟨0, 5, []⟩ : Dispatcher Nat)
            [[], [], [], [], []]).get? (2 - 1) = some GraphTag.steady)
      ∧ (2 = 5 →
        (callSequenceTags 0 (fun _ l => ExecOut.tup l)
            (⟨0, 5, []⟩ : Dispatcher Nat)
            [[], [], [], [], []]).get? (2 - 1) = some GraphTag.cleanup))
    ∧ (∀ a1 a2 a3 a4 a5 : List Nat,
        callSequenceTags 0 (fun _ l => ExecOut.tup l) ⟨0, 5, []⟩
            [a1, a2, a3, a4, a5]
          = [GraphTag.setup, GraphTag.steady, GraphTag.steady,
             GraphTag.steady, GraphTag.cleanup])
    ∧ (∀ b1 b2 : List Nat,
        callSequenceTags 0 (fun _ l => ExecOut.tup l) ⟨0, 2, []⟩ [b1, b2]
          = [GraphTag.setup, GraphTag.cleanup])) :=
  ⟨by decide,
   dispatcher_routing 0 (fun _ l => ExecOut.tup l) [] 5 2 [[], [], [], [], []]
     (by decide) (by decide) (by decide) (by decide)⟩

/-- C9 (as stated) is false on the code: on the final call
(`_iter = _max_iters`), `_run` extends the arguments with the retained
boundary tuple but returns the raw result unsplit and does not update
`_previous_output`.  Here `num_extra_output = 1`, the retained tuple is
`(9,)`, the graph echoes its arguments plus 100, and the raw pair
`(103, 109)` is returned whole instead of the bare real output `103`. -/
theorem run_split_counterexample :
    moduleRun 1 (⟨2, 2, [9]⟩ : Dispatcher Nat)
        (fun l => ExecOut.tup (l.map (· + 100))) [3]
      = (⟨2, 2, [9]⟩, Except.ok (ExecOut.tup [103, 109]))
    ∧ (moduleRun 1 (⟨2, 2, [9]⟩ : Dispatcher Nat)
        (fun l => ExecOut.tup (l.map (· + 100))) [3]).2
      ≠ Except.ok (ExecOut.single 103) := by
  constructor
  · rfl
  · intro h
    simp [moduleRun] at h

/-- C9 amended: for every `_run` call with a positive
synthesized-boundary-value count, the arguments are extended with the
boundary tuple retained from the previous call; when the call index is
strictly below the configured bound, the raw tuple result is split using
the count, the boundary values are retained, and only the real outputs are
returned (unwrapped when exactly one); on the final call and beyond
(`_iter ≥ _max_iters`) the raw result is returned unchanged and the
retained tuple is not updated. -/
theorem run_boundary_threading {α : Type} (numExtra : Nat)
    (d : Dispatcher α) (exec : List α → ExecOut α) (args : List α)
    (l : List α) (hpos : 0 < numExtra)
    (hexec : exec (args ++ d.previousOutput) = ExecOut.tup l) :
    (d.iter < d.maxIters → numExtra < l.length →
        moduleRun numExtra d exec args
          = ({ d with previousOutput := l.drop (l.length - numExtra) },
             Except.ok (match l.take (l.length - numExtra) with
                        | [a] => ExecOut.single a
                        | r => ExecOut.tup r)))
    ∧ (d.maxIters ≤ d.iter →
        moduleRun numExtra d exec args = (d, Except.ok (ExecOut.tup l))) := by
  constructor
  · intro h1 h2
    unfold moduleRun
    simp only [hpos, if_pos, h1, if_true, hexec]
    simp [h2]
  · intro h1
    unfold moduleRun
    simp [hpos, Nat.not_lt.mpr h1, hexec]

theorem run_boundary_threading_witness :
    (0 < 1
      ∧ (fun l => ExecOut.tup (l.map (· + 100)))
          ([3] ++ (⟨1, 3, [9]⟩ : Dispatcher Nat).previousOutput)
        = ExecOut.tup [103, 109])
    ∧ (((⟨1, 3, [9]⟩ : Dispatcher Nat).iter
          < (⟨1, 3, [9]⟩ : Dispatcher Nat).maxIters →
        1 < ([103, 109] : List Nat).length →
        moduleRun 1 (⟨1, 3, [9]⟩ : Dispatcher Nat)
            (fun l => ExecOut.tup (l.map (· + 100))) [3]
          = ({ (⟨1, 3, [9]⟩ : Dispatcher Nat) with
                previousOutput :=
                  ([103, 109] : List Nat).drop ([103, 109].length - 1) },
             Except.ok
               (match ([103, 109] : List Nat).take ([103, 109].length - 1) with
                | [a] => ExecOut.single a
                | r => ExecOut.tup r)))
      ∧ ((⟨1, 3, [9]⟩ : Dispatcher Nat).maxIters
            ≤ (⟨1, 3, [9]⟩ : Dispatcher Nat).iter →
          moduleRun 1 (⟨1, 3, [9]⟩ : Dispatcher Nat)
              (fun l => ExecOut.tup (l.map (· + 100))) [3]
            = (⟨1, 3, [9]⟩, Except.ok (ExecOut.tup [103, 109])))) :=
  ⟨⟨by decide, by decide⟩,
   run_boundary_threading 1 ⟨1, 3, [9]⟩ (fun l => ExecOut.tup (l.map (· + 100)))
     [3] [103, 109] (by decide) (by decide)⟩

/-- C10: with the bound configured to exactly 1, the first `forward` call
executes the setup graph — the `_iter == 1` branch is checked before the
`_iter == _max_iters` branch, so setup takes precedence over cleanup. -/
theorem forward_setup_precedence_at_one {α : Type} (numExtra : Nat)
    (execs : GraphTag → List α → ExecOut α) (args prev : List α) :
    (moduleForward numExtra (⟨0, 1, prev⟩ : Dispatcher α) execs args).2.1
      = GraphTag.setup := rfl

/-! ## Helper lemmas on the graph model -/

theorem keys_map_preserving (g : Graph)
    (f : Nat × NodeData → Nat × NodeData) (h : ∀ e, (f e).1 = e.1) :
    keys (g.map f) = keys g := by
  unfold keys
  rw [List.map_map]
  exact List.map_congr_left (fun e _ => h e)

theorem keys_addUser (g : Graph) (p : Nat) (u : UserKey) :
    keys (addUser g p u) = keys g := by
  apply keys_map_preserving
  intro e
  dsimp only
  split <;> rfl

theorem keys_removeUser (g : Graph) (p : Nat) (u : UserKey) :
    keys (removeUser g p u) = keys g := by
  apply keys_map_preserving
  intro e
  dsimp only
  split <;> rfl

theorem keys_setUsers (g : Graph) (p : Nat) (us : List UserKey) :
    keys (setUsers g p us) = keys g := by
  apply keys_map_preserving
  intro e
  dsimp only
  split <;> rfl

theorem keys_foldl_addUser (l : List Nat) (g : Graph) (id : Nat) :
    keys (l.foldl (fun h a => addUser h a (.node id)) g) = keys g := by
  induction l generalizing g with
  | nil => rfl
  | cons a t ih => rw [List.foldl_cons, ih, keys_addUser]

theorem keys_foldl_removeUser (l : List Nat) (g : Graph) (id : Nat) :
    keys (l.foldl (fun h a => removeUser h a (.node id)) g) = keys g := by
  induction l generalizing g with
  | nil => rfl
  | cons a t ih => rw [List.foldl_cons, ih, keys_removeUser]

theorem keys_fxNewNode_append (g : Graph) (id : Nat) (op : Opk)
    (t : Target) (args : List Arg) :
    keys (fxNewNode g none id op t args) = keys g ++ [id] := by
  unfold fxNewNode
  rw [keys_foldl_addUser]
  unfold keys
  rw [List.map_append]
  rfl

theorem lookupAssoc_cons_self {β : Type} (k : Nat) (b : β)
    (m : List (Nat × β)) : lookupAssoc ((k, b) :: m) k = some b := by
  unfold lookupAssoc
  rw [List.find?_cons_of_pos _ (by simp)]

theorem lookupAssoc_cons_ne {β : Type} (k k2 : Nat) (b : β)
    (m : List (Nat × β)) (h : k2 ≠ k) :
    lookupAssoc ((k, b) :: m) k2 = lookupAssoc m k2 := by
  unfold lookupAssoc
  rw [List.find?_cons_of_neg _ (by simp [Ne.symm h])]

theorem lookupAssoc_some_mem {β : Type} (m : List (Nat × β)) (k : Nat)
    (b : β) (h : lookupAssoc m k = some b) : k ∈ m.map (·.1) := by
  unfold lookupAssoc at h
  cases hf : m.find? (fun p => p.1 == k) with
  | none => rw [hf] at h; exact absurd h (by simp)
  | some p =>
    have hmem := List.mem_of_find?_eq_some hf
    have hp : p.1 = k := by simpa using List.find?_some hf
    exact hp ▸ List.mem_map_of_mem (·.1) hmem

theorem keys_filter_ne (g : Graph) (n : Nat) :
    keys (g.filter (fun e => e.1 ≠ n))
      = (keys g).filter (fun k => k ≠ n) := by
  induction g with
  | nil => rfl
  | cons e t ih =>
    by_cases h : e.1 = n
    · simp only [keys, List.map_cons, List.filter_cons, h]
      simpa [keys] using ih
    · simp only [keys, List.map_cons, List.filter_cons, h]
      simp only [decide_not, decide_eq_true_eq] at *
      simpa [keys, h] using ih

theorem fxEraseNode_ok_keys (g : Graph) (id : Nat) (g2 : Graph)
    (h : fxEraseNode g id = .ok g2) :
    id ∈ keys g ∧ keys g2 = (keys g).filter (fun k => k ≠ id) := by
  unfold fxEraseNode at h
  split at h
  · exact absurd h (by simp)
  · rename_i d hl
    split at h
    · exact absurd h (by simp)
    · simp only [Except.ok.injEq] at h
      refine ⟨lookupAssoc_some_mem g id d hl, ?_⟩
      rw [← h, keys_foldl_removeUser, keys_filter_ne]

/-- The success shape of a non-frozen `erase_node`: both lookups hit, all
three underlying erasures succeed, and the result is exactly the state
with the three graphs replaced (maps, counters, and freshness counter
untouched) together with the trace setup, steady, cleanup. -/
theorem erase_node_ok_shape (s : IterG) (n : Nat) (hfz : s.frozen = false)
    (hok : (s.erase_node n).2.2 = none) :
    ∃ sn cn g1 g2 g3,
      lookupAssoc s.setupMap n = some sn
      ∧ lookupAssoc s.cleanupMap n = some cn
      ∧ fxEraseNode s.setupG sn = .ok g1
      ∧ fxEraseNode s.steadyG n = .ok g2
      ∧ fxEraseNode s.cleanupG cn = .ok g3
      ∧ s.erase_node n
          = ({ s with setupG := g1, steadyG := g2, cleanupG := g3 },
             [GraphTag.setup, GraphTag.steady, GraphTag.cleanup], none) := by
  unfold IterG.erase_node at hok
  simp only [hfz, Bool.false_eq_true, if_false] at hok
  split at hok
  · simp at hok
  · rename_i sn h1
    split at hok
    · simp at hok
    · rename_i g1 h2
      split at hok
      · simp at hok
      · rename_i g2 h3
        split at hok
        · simp at hok
        · rename_i cn h4
          split at hok
          · simp at hok
          · rename_i g3 h5
            refine ⟨sn, cn, g1, g2, g3, h1, h4, h2, h3, h5, ?_⟩
            unfold IterG.erase_node
            simp only [hfz, Bool.false_eq_true, if_false, h1, h2, h3, h4, h5]

/-! ## C2: order of the mirrored edits -/

/-- C2 (as stated) is false on the code: for the placeholder primitive on
an unfrozen engine, the underlying creations run on the steady graph
first, then setup, then cleanup — not setup first, cleanup second, steady
last. -/
theorem mirror_order_counterexample :
    (egEngine.placeholder "p").2
        = [GraphTag.steady, GraphTag.setup, GraphTag.cleanup]
    ∧ (egEngine.placeholder "p").2
        ≠ [GraphTag.setup, GraphTag.cleanup, GraphTag.steady] := by
  decide

/-- C2 amended: while not frozen, `call_function` and (when it succeeds)
`erase_node` touch the graphs in the order setup, steady, cleanup, while
`placeholder` and `output` touch them in the order steady, setup,
cleanup; in no primitive is the steady graph edited last after both
satellites. -/
theorem mirror_order_amended (s : IterG) (t : Target) (args : List Arg)
    (name : String) (result : List Arg) (n : Nat)
    (hfz : s.frozen = false) :
    (s.call_function t args).2.1
        = [GraphTag.setup, GraphTag.steady, GraphTag.cleanup]
    ∧ (s.placeholder name).2
        = [GraphTag.steady, GraphTag.setup, GraphTag.cleanup]
    ∧ (s.output result).2
        = [GraphTag.steady, GraphTag.setup, GraphTag.cleanup]
    ∧ ((s.erase_node n).2.2 = none →
        (s.erase_node n).2.1
          = [GraphTag.setup, GraphTag.steady, GraphTag.cleanup]) := by
  refine ⟨?_, ?_, ?_, ?_⟩
  · simp [IterG.call_function, hfz]
  · simp [IterG.placeholder, hfz]
  · simp [IterG.output, hfz]
  · intro hok
    obtain ⟨sn, cn, g1, g2, g3, _, _, _, _, _, heq⟩ :=
      erase_node_ok_shape s n hfz hok
    rw [heq]

theorem mirror_order_amended_witness :
    (egEngine.frozen = false)
    ∧ ((egEngine.call_function (.fn 2) [Arg.node 0]).2.1
          = [GraphTag.setup, GraphTag.steady, GraphTag.cleanup]
      ∧ (egEngine.placeholder "q").2
          = [GraphTag.steady, GraphTag.setup, GraphTag.cleanup]
      ∧ (egEngine.output [Arg.node 1]).2
          = [GraphTag.steady, GraphTag.setup, GraphTag.cleanup]
      ∧ ((egEngine.erase_node 1).2.2 = none →
          (egEngine.erase_node 1).2.1
            = [GraphTag.setup, GraphTag.steady, GraphTag.cleanup])) :=
  ⟨by decide,
   mirror_order_amended egEngine (.fn 2) [Arg.node 0] "q" [Arg.node 1] 1
     (by decide)⟩

/-! ## C4: behavior of the primitives after freeze -/

/-- C4: the code contradicts the claim (and its own intent) after freeze.
On a frozen engine `output` invokes the underlying placeholder primitive
on the steady graph — a placeholder node carrying the result in its name
position is appended, and the existing output node's argument tuple is
untouched — and `node_update_arg` passes the builtin `int` as the index,
raising `TypeError` and mutating nothing.  The satellite graphs and the
correspondence maps are indeed left unchanged. -/
theorem frozen_output_update_arg_bug :
    ((frozenEngine.output [Arg.lit 5]).1.steadyG
        = frozenEngine.steadyG
          ++ [(100, ⟨Opk.placeholder, Target.result [Arg.lit 5], [], []⟩)])
    ∧ ((frozenEngine.output [Arg.lit 5]).1.setupG = frozenEngine.setupG)
    ∧ ((frozenEngine.output [Arg.lit 5]).1.cleanupG = frozenEngine.cleanupG)
    ∧ ((frozenEngine.output [Arg.lit 5]).1.setupMap = frozenEngine.setupMap)
    ∧ ((frozenEngine.output [Arg.lit 5]).1.cleanupMap
        = frozenEngine.cleanupMap)
    ∧ (nodeArgsAt (frozenEngine.output [Arg.lit 5]).1.steadyG 1
        = some [Arg.node 0])
    ∧ (frozenEngine.node_update_arg 0 0 (Arg.lit 7)
        = (frozenEngine, some EngineErr.typeError)) := by
  decide

/-! ## C7: erase and the correspondence maps -/

/-- C7 (as stated) is false on the code: `erase_node` removes the node
from the three graphs but never removes its correspondence-map entries —
after a successful erase the maps still carry the erased key. -/
theorem erase_mapping_counterexample :
    ((egEngine.erase_node 1).2.2 = none)
    ∧ (1 ∉ keys (egEngine.erase_node 1).1.steadyG)
    ∧ (lookupAssoc (egEngine.erase_node 1).1.setupMap 1 = some 11)
    ∧ (lookupAssoc (egEngine.erase_node 1).1.cleanupMap 1 = some 21) := by
  decide

/-- C7 amended: for every node erased through the engine's erase primitive
while not frozen, the node and its counterparts are removed from the three
graphs, but the correspondence maps are left exactly as they were — the
entry for the erased key persists as a stale entry (it is never consulted
for a node still present in the steady graph). -/
theorem erase_keeps_maps (s : IterG) (n : Nat) (hfz : s.frozen = false)
    (hok : (s.erase_node n).2.2 = none) :
    (s.erase_node n).1.setupMap = s.setupMap
    ∧ (s.erase_node n).1.cleanupMap = s.cleanupMap
    ∧ n ∉ keys (s.erase_node n).1.steadyG
    ∧ (∃ sn, lookupAssoc s.setupMap n = some sn
        ∧ sn ∉ keys (s.erase_node n).1.setupG)
    ∧ (∃ cn, lookupAssoc s.cleanupMap n = some cn
        ∧ cn ∉ keys (s.erase_node n).1.cleanupG) := by
  obtain ⟨sn, cn, g1, g2, g3, h1, h4, h2, h3, h5, heq⟩ :=
    erase_node_ok_shape s n hfz hok
  rw [heq]
  refine ⟨rfl, rfl, ?_, ⟨sn, h1, ?_⟩, ⟨cn, h4, ?_⟩⟩
  · rw [(fxEraseNode_ok_keys _ _ _ h3).2]
    simp
  · rw [(fxEraseNode_ok_keys _ _ _ h2).2]
    simp
  · rw [(fxEraseNode_ok_keys _ _ _ h5).2]
    simp

theorem erase_keeps_maps_witness :
    (egEngine.frozen = false ∧ (egEngine.erase_node 1).2.2 = none)
    ∧ ((egEngine.erase_node 1).1.setupMap = egEngine.setupMap
      ∧ (egEngine.erase_node 1).1.cleanupMap = egEngine.cleanupMap
      ∧ 1 ∉ keys (egEngine.erase_node 1).1.steadyG
      ∧ (∃ sn, lookupAssoc egEngine.setupMap 1 = some sn
          ∧ sn ∉ keys (egEngine.erase_node 1).1.setupG)
      ∧ (∃ cn, lookupAssoc egEngine.cleanupMap 1 = some cn
          ∧ cn ∉ keys (egEngine.erase_node 1).1.cleanupG)) :=
  ⟨⟨by decide, by decide⟩, erase_keeps_maps egEngine 1 (by decide) (by decide)⟩

/-! ## Output-node and export lemmas -/

theorem findOutput_map (g : Graph) (f : Nat × NodeData → Nat × NodeData)
    (h1 : ∀ e, (f e).1 = e.1) (h2 : ∀ e, (f e).2.target = e.2.target) :
    findOutput (g.map f) = findOutput g := by
  unfold findOutput
  rw [← List.map_reverse, List.find?_map]
  have hc : ((fun e : Nat × NodeData => e.2.target == Target.str "output")
      ∘ f) = (fun e => e.2.target == Target.str "output") := by
    funext e
    simp [Function.comp, h2]
  rw [hc]
  cases hf : g.reverse.find? (fun e => e.2.target == Target.str "output") with
  | none => rfl
  | some e => simp [h1]

theorem findOutput_addUser (g : Graph) (p : Nat) (u : UserKey) :
    findOutput (addUser g p u) = findOutput g := by
  apply findOutput_map <;> intro e <;> dsimp only <;> split <;> rfl

theorem findOutput_foldl_addUser (l : List Nat) (g : Graph) (id : Nat) :
    findOutput (l.foldl (fun h a => addUser h a (.node id)) g)
      = findOutput g := by
  induction l generalizing g with
  | nil => rfl
  | cons a t ih => rw [List.foldl_cons, ih, findOutput_addUser]

theorem findOutput_fxOutput (g : Graph) (id : Nat) (result : List Arg) :
    findOutput (fxOutput g id result) = some id := by
  unfold fxOutput fxNewNode
  rw [findOutput_foldl_addUser]
  unfold findOutput
  rw [List.reverse_append]
  simp [List.find?]

theorem lookupAssoc_map_eq (g : Graph)
    (f : Nat × NodeData → Nat × NodeData) (h1 : ∀ e, (f e).1 = e.1)
    (k : Nat) :
    lookupAssoc (g.map f) k
      = (g.find? (fun e => e.1 == k)).map (fun e => (f e).2) := by
  unfold lookupAssoc
  rw [List.find?_map]
  have hc : ((fun p : Nat × NodeData => p.1 == k) ∘ f)
      = fun p => p.1 == k := by
    funext e
    simp [Function.comp, h1]
  rw [hc]
  cases g.find? (fun p => p.1 == k) <;> rfl

theorem nodeArgsAt_addUser (g : Graph) (p : Nat) (u : UserKey) (k : Nat) :
    nodeArgsAt (addUser g p u) k = nodeArgsAt g k := by
  unfold nodeArgsAt addUser
  rw [lookupAssoc_map_eq _ _ (by intro e; dsimp only; split <;> rfl)]
  unfold lookupAssoc
  cases g.find? (fun p => p.1 == k) with
  | none => rfl
  | some e =>
    dsimp only [Option.map_some']
    split <;> rfl

theorem nodeArgsAt_foldl_addUser (l : List Nat) (g : Graph) (id k : Nat) :
    nodeArgsAt (l.foldl (fun h a => addUser h a (.node id)) g) k
      = nodeArgsAt g k := by
  induction l generalizing g with
  | nil => rfl
  | cons a t ih => rw [List.foldl_cons, ih, nodeArgsAt_addUser]

theorem lookupAssoc_cons_miss {β : Type} (e : Nat × β)
    (m : List (Nat × β)) (k : Nat) (h : ¬ e.1 = k) :
    lookupAssoc (e :: m) k = lookupAssoc m k := by
  unfold lookupAssoc
  rw [List.find?_cons_of_neg _ (by simp [h])]

theorem lookupAssoc_append_fresh {β : Type} (A : List (Nat × β)) (k : Nat)
    (b : β) (h : k ∉ A.map (·.1)) :
    lookupAssoc (A ++ [(k, b)]) k = some b := by
  induction A with
  | nil => exact lookupAssoc_cons_self k b []
  | cons e t ih =>
    simp only [List.map_cons, List.mem_cons] at h
    push_neg at h
    rw [List.cons_append, lookupAssoc_cons_miss _ _ _ (fun hh => h.1 hh.symm)]
    exact ih h.2

theorem subgraphEraseLoop_keys_subset (newOutput : List Arg) (outId : Nat)
    (rev : List Nat) :
    ∀ (erased : List Nat) (g : Graph),
      keys (subgraphEraseLoop newOutput outId g erased rev).1 ⊆ keys g := by
  induction rev with
  | nil =>
    intro erased g
    unfold subgraphEraseLoop
    exact fun a h => h
  | cons n rest ih =>
    intro erased g
    unfold subgraphEraseLoop
    split
    · exact fun a h => h
    · rename_i d hl
      dsimp only
      split
      · intro a ha
        rwa [keys_setUsers] at ha
      · split
        · intro a ha
          rwa [keys_setUsers] at ha
        · rename_i g2 h2
          intro a ha
          have h3 := ih (n :: erased) g2 ha
          rw [(fxEraseNode_ok_keys _ _ _ h2).2, keys_setUsers] at h3
          exact List.mem_of_mem_filter h3

theorem forwardSubgraphInputs_count (g : Graph) (sub : List Nat)
    (eraseFlag : Bool) (fresh : Nat) (k : Nat)
    (h : (forwardSubgraphInputs g sub eraseFlag fresh).2.2 = Except.ok k) :
    k = (externalInputs g sub).length := by
  unfold forwardSubgraphInputs at h
  split at h
  · simp at h
  · split at h
    · simp at h
    · dsimp only at h
      split at h
      · simp at h
      · split at h
        · simp at h
        · simp only [Except.ok.injEq] at h
          exact h.symm

/-- The success shape of `_forward_subgraph_inputs`: the returned count is
the length of the (non-deduplicated) external-input list, and the rebuilt
output node — which becomes the graph's output — carries the original
output tuple with exactly that list appended. -/
theorem forwardSubgraphInputs_ok_shape (g : Graph) (sub : List Nat)
    (eraseFlag : Bool) (fresh : Nat) (g2 : Graph) (fresh2 : Nat) (k : Nat)
    (outId : Nat) (outData : NodeData)
    (hfr : ∀ kk ∈ keys g, kk < fresh)
    (hout : findOutput g = some outId)
    (hdata : lookupAssoc g outId = some outData)
    (h : forwardSubgraphInputs g sub eraseFlag fresh
        = (g2, fresh2, Except.ok k)) :
    k = (externalInputs g sub).length
    ∧ findOutput g2 = some fresh
    ∧ nodeArgsAt g2 fresh
        = some (outData.args ++ (externalInputs g sub).map Arg.node) := by
  unfold forwardSubgraphInputs at h
  rw [hout] at h
  dsimp only at h
  rw [hdata] at h
  dsimp only at h
  have hkeep : keys (if eraseFlag then
      subgraphEraseLoop (outData.args ++ (externalInputs g sub).map Arg.node)
        outId g [] sub.reverse
      else (g, none)).1 ⊆ keys g := by
    split
    · exact subgraphEraseLoop_keys_subset _ _ _ _ _
    · exact fun a ha => ha
  split at h
  · simp at h
  · rename_i hnone
    split at h
    · simp at h
    · rename_i ge hge
      simp only [Prod.mk.injEq, Except.ok.injEq] at h
      obtain ⟨hg2, _, hk⟩ := h
      refine ⟨hk.symm, ?_, ?_⟩
      · rw [← hg2, findOutput_fxOutput]
      · rw [← hg2]
        unfold fxOutput fxNewNode
        rw [nodeArgsAt_foldl_addUser]
        unfold nodeArgsAt
        rw [lookupAssoc_append_fresh]
        · rfl
        · intro hmem
          have hsub : fresh ∈ keys g := by
            have h5 := (fxEraseNode_ok_keys _ _ _ hge).2
            have hin : fresh ∈ keys ge := hmem
            rw [h5] at hin
            exact hkeep (List.mem_of_mem_filter hin)
          exact absurd (hfr fresh hsub) (by omega)

/-! ## C3: the exported external-input list -/

/-- C3 (as stated) is false on the code: `_forward_subgraph_inputs` does
not deduplicate.  For a block whose node consumes the same external value
twice, the collected list is `[x, x]`, the count returned is 2 (not the
deduplicated count 1), and the rebuilt output tuple repeats the value. -/
theorem export_dedup_counterexample :
    externalInputs dupGraph [1] = [0, 0]
    ∧ firstSeenDedup (externalInputs dupGraph [1]) = [0]
    ∧ (forwardSubgraphInputs dupGraph [1] false 100).2.2 = Except.ok 2
    ∧ (forwardSubgraphInputs dupGraph [1] false 100).2.2
        ≠ Except.ok (firstSeenDedup (externalInputs dupGraph [1])).length
    ∧ nodeArgsAt (forwardSubgraphInputs dupGraph [1] false 100).1 100
        = some [Arg.node 1, Arg.node 0, Arg.node 0] := by
  decide

/-- C3 amended: the export collects the block's outside-produced
node-valued inputs in traversal order with one occurrence per consuming
reference — duplicates retained, not deduplicated — appends exactly that
list to the graph's output tuple, and returns its length. -/
theorem forward_subgraph_inputs_appends (g : Graph) (sub : List Nat)
    (eraseFlag : Bool) (fresh : Nat) (g2 : Graph) (fresh2 : Nat) (k : Nat)
    (outId : Nat) (outData : NodeData)
    (hfr : ∀ kk ∈ keys g, kk < fresh)
    (hout : findOutput g = some outId)
    (hdata : lookupAssoc g outId = some outData)
    (h : forwardSubgraphInputs g sub eraseFlag fresh
        = (g2, fresh2, Except.ok k)) :
    k = (externalInputs g sub).length
    ∧ findOutput g2 = some fresh
    ∧ nodeArgsAt g2 fresh
        = some (outData.args ++ (externalInputs g sub).map Arg.node) :=
  forwardSubgraphInputs_ok_shape g sub eraseFlag fresh g2 fresh2 k outId
    outData hfr hout hdata h

theorem forward_subgraph_inputs_appends_witness :
    ((∀ kk ∈ keys dupGraph, kk < 100)
      ∧ findOutput dupGraph = some 2
      ∧ lookupAssoc dupGraph 2
          = some ⟨.output, .str "output", [.node 1], []⟩
      ∧ forwardSubgraphInputs dupGraph [1] false 100
          = ((forwardSubgraphInputs dupGraph [1] false 100).1,
             (forwardSubgraphInputs dupGraph [1] false 100).2.1,
             Except.ok 2))
    ∧ (2 = (externalInputs dupGraph [1]).length
      ∧ findOutput (forwardSubgraphInputs dupGraph [1] false 100).1
          = some 100
      ∧ nodeArgsAt (forwardSubgraphInputs dupGraph [1] false 100).1 100
          = some (([.node 1] : List Arg)
              ++ (externalInputs dupGraph [1]).map Arg.node)) :=
  ⟨⟨by decide, by decide, by decide, by decide⟩,
   forward_subgraph_inputs_appends dupGraph [1] false 100
     (forwardSubgraphInputs dupGraph [1] false 100).1
     (forwardSubgraphInputs dupGraph [1] false 100).2.1 2 2
     ⟨.output, .str "output", [.node 1], []⟩
     (by decide) (by decide) (by decide) (by decide)⟩

/-! ## C5: validation rejects bad blocks before mutating -/

/-- C5: on an unfrozen engine, a block containing a node with a
node-valued user that is neither in the block nor the graph's output node
makes `move_to_next_iter_before` fail with the validation error before any
mutation: the returned state is exactly the pre-call state. -/
theorem move_validation_rejects (s : IterG) (sub : List Nat) (tgt : Nat)
    (n u : Nat) (d : NodeData) (hfz : s.frozen = false) (hn : n ∈ sub)
    (hd : lookupAssoc s.steadyG n = some d)
    (hu : UserKey.node u ∈ d.users) (hnotin : u ∉ sub)
    (hnotout : findOutput s.steadyG ≠ some u) :
    s.move_to_next_iter_before sub tgt
      = (s, some EngineErr.validationErr) := by
  have hbad : isConnectToOutput s.steadyG sub (findOutput s.steadyG)
      = false := by
    unfold isConnectToOutput
    rw [List.all_eq_false]
    refine ⟨n, hn, ?_⟩
    rw [hd]
    dsimp only
    intro hall
    rw [List.all_eq_true] at hall
    have := hall (UserKey.node u) hu
    dsimp only at this
    rw [Bool.or_eq_true] at this
    rcases this with hc | hc
    · exact hnotin (by simpa using hc)
    · exact hnotout (eq_of_beq hc)
  unfold IterG.move_to_next_iter_before
  rw [if_neg (by rw [hfz]; exact Bool.false_ne_true)]
  rw [if_pos (by rw [hbad]; exact Bool.false_ne_true)]

theorem move_validation_rejects_witness :
    (chainEngine.frozen = false ∧ (1 : Nat) ∈ [1]
      ∧ lookupAssoc chainEngine.steadyG 1
          = some ⟨.callFunction, .fn 1, [.node 0], [.node 2]⟩
      ∧ UserKey.node 2
          ∈ (⟨.callFunction, .fn 1, [.node 0], [.node 2]⟩ : NodeData).users
      ∧ (2 : Nat) ∉ [1]
      ∧ findOutput chainEngine.steadyG ≠ some 2)
    ∧ chainEngine.move_to_next_iter_before [1] 2
        = (chainEngine, some EngineErr.validationErr) :=
  ⟨⟨by decide, by decide, by decide, by decide, by decide, by decide⟩,
   move_validation_rejects chainEngine [1] 2 1 2
     ⟨.callFunction, .fn 1, [.node 0], [.node 2]⟩
     (by decide) (by decide) (by decide) (by decide) (by decide)
     (by decide)⟩

/-! ## C6: k-consistency of a completed relocation -/

/-- C6: when `move_to_next_iter_before` completes without error, the
export count computed on the setup graph in step 1 equals the export
count computed on the steady graph in step 3, and the engine's
`num_extra_output` grows by exactly that count. -/
theorem move_k_consistency (s s2 : IterG) (sub : List Nat) (tgt : Nat)
    (h : s.move_to_next_iter_before sub tgt = (s2, none)) :
    ∃ setupSub,
      optionAll (sub.map (lookupAssoc s.setupMap)) = some setupSub
      ∧ (externalInputs s.setupG setupSub).length
          = (externalInputs s.steadyG sub).length
      ∧ s2.numExtraOutput
          = s.numExtraOutput + (externalInputs s.steadyG sub).length := by
  unfold IterG.move_to_next_iter_before at h
  split at h
  · exact Option.noConfusion (congrArg Prod.snd h)
  · split at h
    · exact Option.noConfusion (congrArg Prod.snd h)
    · dsimp only at h
      split at h
      · exact Option.noConfusion (congrArg Prod.snd h)
      · rename_i setupSub hss
        split at h
        · exact Option.noConfusion (congrArg Prod.snd h)
        · rename_i setupExtra hr1
          split at h
          · exact Option.noConfusion (congrArg Prod.snd h)
          · rename_i targetCleanup htc
            split at h
            · exact Option.noConfusion (congrArg Prod.snd h)
            · rename_i cleanupSub hcs
              split at h
              · exact Option.noConfusion (congrArg Prod.snd h)
              · rename_i hr2
                split at h
                · exact Option.noConfusion (congrArg Prod.snd h)
                · rename_i hr3
                  split at h
                  · exact Option.noConfusion (congrArg Prod.snd h)
                  · rename_i mainExtra hr4
                    split at h
                    · rename_i hkeq
                      split at h
                      · exact Option.noConfusion (congrArg Prod.snd h)
                      · rename_i hr5
                        injection h with h1 h2
                        have e1 := forwardSubgraphInputs_count _ _ _ _ _ hr1
                        have e2 := forwardSubgraphInputs_count _ _ _ _ _ hr4
                        refine ⟨setupSub, hss, ?_, ?_⟩
                        · rw [← e1, ← e2]
                          exact hkeq.symm
                        · rw [← h1]
                          dsimp only
                          rw [e2]
                    · exact Option.noConfusion (congrArg Prod.snd h)

theorem move_k_consistency_witness :
    (moveEngine.move_to_next_iter_before [2] 1
        = ((moveEngine.move_to_next_iter_before [2] 1).1, none))
    ∧ (∃ setupSub,
        optionAll ([2].map (lookupAssoc moveEngine.setupMap))
          = some setupSub
        ∧ (externalInputs moveEngine.setupG setupSub).length
            = (externalInputs moveEngine.steadyG [2]).length
        ∧ (moveEngine.move_to_next_iter_before [2] 1).1.numExtraOutput
            = moveEngine.numExtraOutput
              + (externalInputs moveEngine.steadyG [2]).length) :=
  ⟨by decide,
   move_k_consistency moveEngine
     (moveEngine.move_to_next_iter_before [2] 1).1 [2] 1 (by decide)⟩

/-! ## Forall₂ and key-list helper lemmas for the invariant -/

theorem forall₂_lookup_extend (m : List (Nat × Nat)) (p : Nat × Nat)
    (l₁ l₂ : List Nat) (hne : ∀ k ∈ l₁, k ≠ p.1)
    (h : List.Forall₂ (fun a b => lookupAssoc m a = some b) l₁ l₂) :
    List.Forall₂ (fun a b => lookupAssoc (p :: m) a = some b) l₁ l₂ := by
  revert hne
  induction h with
  | nil => intro _; exact .nil
  | @cons a b t₁ t₂ hab htail ih =>
    intro hne
    refine .cons ?_ (ih (fun k hk => hne k (List.mem_cons_of_mem _ hk)))
    rw [lookupAssoc_cons_miss p m a
      (fun hh => hne a (List.mem_cons_self a t₁) hh.symm)]
    exact hab

theorem forall₂_split_left {R : Nat → Nat → Prop} :
    ∀ (A : List Nat) (n : Nat) (B l : List Nat),
      List.Forall₂ R (A ++ n :: B) l →
      ∃ C c D, l = C ++ c :: D ∧ List.Forall₂ R A C ∧ R n c
        ∧ List.Forall₂ R B D := by
  intro A
  induction A with
  | nil =>
    intro n B l h
    cases h with
    | cons hab htail => exact ⟨[], _, _, rfl, .nil, hab, htail⟩
  | cons a t ih =>
    intro n B l h
    cases h with
    | cons hab htail =>
      obtain ⟨C, c, D, rfl, h1, h2, h3⟩ := ih n B _ htail
      exact ⟨_ :: C, c, D, rfl, .cons hab h1, h2, h3⟩

theorem forall₂_mem_left {R : Nat → Nat → Prop} (l₁ l₂ : List Nat)
    (a : Nat) (h : List.Forall₂ R l₁ l₂) (ha : a ∈ l₁) :
    ∃ b ∈ l₂, R a b := by
  revert ha
  induction h with
  | nil => intro ha; cases ha
  | @cons x y t₁ t₂ hab htail ih =>
    intro ha
    rcases List.mem_cons.mp ha with rfl | ht
    · exact ⟨y, List.mem_cons_self y t₂, hab⟩
    · obtain ⟨b, hb, hr⟩ := ih ht
      exact ⟨b, List.mem_cons_of_mem _ hb, hr⟩

theorem forall₂_lookup_mapPairs (l : List Nat) (f : Nat → Nat)
    (hn : l.Nodup) :
    List.Forall₂
      (fun a b => lookupAssoc (l.map (fun k => (k, f k))) a = some b)
      l (l.map f) := by
  induction l with
  | nil => exact .nil
  | cons a t ih =>
    rw [List.map_cons, List.map_cons]
    obtain ⟨ha, ht⟩ := List.nodup_cons.mp hn
    refine .cons (lookupAssoc_cons_self a (f a) _) ?_
    refine forall₂_lookup_extend _ (a, f a) _ _ ?_ (ih ht)
    intro k hk hka
    have hka' : k = a := hka
    exact ha (hka' ▸ hk)

theorem nodup_append_fresh (l : List Nat) (a : Nat) (hn : l.Nodup)
    (ha : ∀ k ∈ l, k < a) : (l ++ [a]).Nodup := by
  rw [List.nodup_append]
  refine ⟨hn, List.nodup_singleton a, ?_⟩
  intro x hx hy
  rw [List.mem_singleton] at hy
  subst hy
  exact absurd (ha x hx) (by omega)

theorem bound_append_fresh (l : List Nat) (a c : Nat)
    (h : ∀ k ∈ l, k < c) (hac : a < c) : ∀ k ∈ l ++ [a], k < c := by
  intro k hk
  rcases List.mem_append.mp hk with hk | hk
  · exact h k hk
  · rw [List.mem_singleton] at hk
    omega

theorem nodup_middle_not_mem (A B : List Nat) (n : Nat)
    (h : (A ++ n :: B).Nodup) : n ∉ A ∧ n ∉ B := by
  rw [List.nodup_append] at h
  obtain ⟨_, h2, h3⟩ := h
  refine ⟨?_, (List.nodup_cons.mp h2).1⟩
  intro hx
  exact h3 hx (List.mem_cons_self n B)

theorem filter_ne_middle (A B : List Nat) (n : Nat)
    (hA : n ∉ A) (hB : n ∉ B) :
    (A ++ n :: B).filter (fun k => k ≠ n) = A ++ B := by
  rw [List.filter_append, List.filter_cons]
  have h1 : A.filter (fun k => k ≠ n) = A :=
    List.filter_eq_self.mpr (fun a ha => by
      simp only [ne_eq, decide_eq_true_eq]
      exact fun hc => hA (hc ▸ ha))
  have h2 : B.filter (fun k => k ≠ n) = B :=
    List.filter_eq_self.mpr (fun a ha => by
      simp only [ne_eq, decide_eq_true_eq]
      exact fun hc => hB (hc ▸ ha))
  rw [h1, h2]
  simp

/-! ## Preservation of the invariant by the mirrored primitives -/

/-- Shared shape of a mirrored creation: one fresh node appended to each
of the three graphs, both maps extended with the steady node's new
correspondence, and the fresh-id supply advanced. -/
theorem structInv_mirror_create (s : IterG) (hinv : StructInv s)
    (sid mid cid fr : Nat)
    (so mo co : Opk) (st mt ct : Target) (sa ma ca : List Arg)
    (hsid : s.fresh ≤ sid) (hmid : s.fresh ≤ mid) (hcid : s.fresh ≤ cid)
    (hsfr : sid < fr) (hmfr : mid < fr) (hcfr : cid < fr)
    (hfr : s.fresh ≤ fr) :
    StructInv { s with
      setupG := fxNewNode s.setupG none sid so st sa,
      steadyG := fxNewNode s.steadyG none mid mo mt ma,
      cleanupG := fxNewNode s.cleanupG none cid co ct ca,
      setupMap := (mid, sid) :: s.setupMap,
      cleanupMap := (mid, cid) :: s.cleanupMap,
      fresh := fr } := by
  constructor
  · exact hinv.notFrozen
  · dsimp only
    rw [keys_fxNewNode_append]
    exact nodup_append_fresh _ _ hinv.steadyNodup
      (fun k hk => by have := hinv.steadyBound k hk; omega)
  · dsimp only
    rw [keys_fxNewNode_append]
    exact nodup_append_fresh _ _ hinv.setupNodup
      (fun k hk => by have := hinv.setupBound k hk; omega)
  · dsimp only
    rw [keys_fxNewNode_append]
    exact nodup_append_fresh _ _ hinv.cleanupNodup
      (fun k hk => by have := hinv.cleanupBound k hk; omega)
  · dsimp only
    rw [keys_fxNewNode_append]
    exact bound_append_fresh _ _ _
      (fun k hk => by have := hinv.steadyBound k hk; omega) hmfr
  · dsimp only
    rw [keys_fxNewNode_append]
    exact bound_append_fresh _ _ _
      (fun k hk => by have := hinv.setupBound k hk; omega) hsfr
  · dsimp only
    rw [keys_fxNewNode_append]
    exact bound_append_fresh _ _ _
      (fun k hk => by have := hinv.cleanupBound k hk; omega) hcfr
  · dsimp only
    rw [keys_fxNewNode_append, keys_fxNewNode_append]
    refine List.rel_append ?_ ?_
    · refine forall₂_lookup_extend _ (mid, sid) _ _ ?_ hinv.setupCorr
      intro k hk hkm
      have hb := hinv.steadyBound k hk
      dsimp only at hkm
      omega
    · exact .cons (lookupAssoc_cons_self mid sid s.setupMap) .nil
  · dsimp only
    rw [keys_fxNewNode_append, keys_fxNewNode_append]
    refine List.rel_append ?_ ?_
    · refine forall₂_lookup_extend _ (mid, cid) _ _ ?_ hinv.cleanupCorr
      intro k hk hkm
      have hb := hinv.steadyBound k hk
      dsimp only at hkm
      omega
    · exact .cons (lookupAssoc_cons_self mid cid s.cleanupMap) .nil

theorem structInv_call_function (s : IterG) (t : Target) (args : List Arg)
    (hinv : StructInv s) : StructInv (s.call_function t args).1 := by
  unfold IterG.call_function
  rw [if_neg (by rw [hinv.notFrozen]; exact Bool.false_ne_true)]
  dsimp only
  exact structInv_mirror_create s hinv s.fresh (s.fresh + 1) (s.fresh + 2)
    (s.fresh + 3) .callFunction .callFunction .callFunction t t t
    (args.map (translateArg s.setupMap)) args
    (args.map (translateArg s.cleanupMap))
    (by omega) (by omega) (by omega) (by omega) (by omega) (by omega)
    (by omega)

theorem structInv_placeholder (s : IterG) (name : String)
    (hinv : StructInv s) : StructInv (s.placeholder name).1 := by
  unfold IterG.placeholder
  rw [if_neg (by rw [hinv.notFrozen]; exact Bool.false_ne_true)]
  dsimp only
  exact structInv_mirror_create s hinv (s.fresh + 1) s.fresh (s.fresh + 2)
    (s.fresh + 3) .placeholder .placeholder .placeholder
    (.str name) (.str name) (.str name) [] [] []
    (by omega) (by omega) (by omega) (by omega) (by omega) (by omega)
    (by omega)

theorem structInv_erase (s : IterG) (n : Nat)
    (hok : (s.erase_node n).2.2 = none) (hinv : StructInv s) :
    StructInv (s.erase_node n).1 := by
  obtain ⟨sn, cn, g1, g2, g3, h1, h4, h2, h3, h5, heq⟩ :=
    erase_node_ok_shape s n hinv.notFrozen hok
  rw [heq]
  dsimp only
  have hk2 := fxEraseNode_ok_keys _ _ _ h3
  obtain ⟨A, B, hAB⟩ := List.append_of_mem hk2.1
  have hsteadyNodupAB := hAB ▸ hinv.steadyNodup
  obtain ⟨hnA, hnB⟩ := nodup_middle_not_mem A B n hsteadyNodupAB
  -- setup-side decomposition along the correspondence
  obtain ⟨C, c, D, hCD, hsAC, hsRnc, hsBD⟩ :=
    forall₂_split_left A n B _ (hAB ▸ hinv.setupCorr)
  have hcsn : sn = c := by
    rw [h1] at hsRnc
    exact (Option.some.injEq _ _).mp hsRnc
  rw [hcsn] at h2
  have hsetupNodupCD := hCD ▸ hinv.setupNodup
  obtain ⟨hsnC, hsnD⟩ := nodup_middle_not_mem C D c hsetupNodupCD
  -- cleanup-side decomposition
  obtain ⟨E, e, F, hEF, hcAE, hcRne, hcBF⟩ :=
    forall₂_split_left A n B _ (hAB ▸ hinv.cleanupCorr)
  have hcen : cn = e := by
    rw [h4] at hcRne
    exact (Option.some.injEq _ _).mp hcRne
  rw [hcen] at h5
  have hcleanupNodupEF := hEF ▸ hinv.cleanupNodup
  obtain ⟨hcnE, hcnF⟩ := nodup_middle_not_mem E F e hcleanupNodupEF
  -- the three key lists after the erase
  have hk1 := fxEraseNode_ok_keys _ _ _ h2
  have hk3 := fxEraseNode_ok_keys _ _ _ h5
  have hkeys2 : keys g2 = A ++ B := by
    rw [hk2.2, hAB, filter_ne_middle A B n hnA hnB]
  have hkeys1 : keys g1 = C ++ D := by
    rw [hk1.2, hCD, filter_ne_middle C D c hsnC hsnD]
  have hkeys3 : keys g3 = E ++ F := by
    rw [hk3.2, hEF, filter_ne_middle E F e hcnE hcnF]
  constructor
  · exact hinv.notFrozen
  · rw [hkeys2]
    rw [List.nodup_append] at hsteadyNodupAB ⊢
    obtain ⟨x1, x2, x3⟩ := hsteadyNodupAB
    exact ⟨x1, (List.nodup_cons.mp x2).2,
      fun a ha hb => x3 ha (List.mem_cons_of_mem _ hb)⟩
  · rw [hkeys1]
    rw [List.nodup_append] at hsetupNodupCD ⊢
    obtain ⟨x1, x2, x3⟩ := hsetupNodupCD
    exact ⟨x1, (List.nodup_cons.mp x2).2,
      fun a ha hb => x3 ha (List.mem_cons_of_mem _ hb)⟩
  · rw [hkeys3]
    rw [List.nodup_append] at hcleanupNodupEF ⊢
    obtain ⟨x1, x2, x3⟩ := hcleanupNodupEF
    exact ⟨x1, (List.nodup_cons.mp x2).2,
      fun a ha hb => x3 ha (List.mem_cons_of_mem _ hb)⟩
  · rw [hkeys2]
    intro k hk
    refine hinv.steadyBound k ?_
    rw [hAB]
    rcases List.mem_append.mp hk with hk | hk
    · exact List.mem_append.mpr (Or.inl hk)
    · exact List.mem_append.mpr (Or.inr (List.mem_cons_of_mem _ hk))
  · rw [hkeys1]
    intro k hk
    refine hinv.setupBound k ?_
    rw [hCD]
    rcases List.mem_append.mp hk with hk | hk
    · exact List.mem_append.mpr (Or.inl hk)
    · exact List.mem_append.mpr (Or.inr (List.mem_cons_of_mem _ hk))
  · rw [hkeys3]
    intro k hk
    refine hinv.cleanupBound k ?_
    rw [hEF]
    rcases List.mem_append.mp hk with hk | hk
    · exact List.mem_append.mpr (Or.inl hk)
    · exact List.mem_append.mpr (Or.inr (List.mem_cons_of_mem _ hk))
  · rw [hkeys2, hkeys1]
    exact List.rel_append hsAC hsBD
  · rw [hkeys2, hkeys3]
    exact List.rel_append hcAE hcBF

/-! ## The initial invariant and the C1 theorem -/

theorem keys_renameGraph (off : Nat) (g : Graph) :
    keys (renameGraph off g) = (keys g).map (fun k => k + off) := by
  unfold keys renameGraph
  rw [List.map_map, List.map_map]
  rfl

theorem structInv_init (g0 : Graph) (B : Nat) (hnd : (keys g0).Nodup)
    (hb : ∀ k ∈ keys g0, k < B) : StructInv (initIterG g0 B) := by
  have hmap : ∀ off : Nat,
      (g0.map (fun p => (p.1, p.1 + off)))
        = (keys g0).map (fun k => (k, k + off)) := by
    intro off
    unfold keys
    rw [List.map_map]
    rfl
  constructor
  · rfl
  · exact hnd
  · dsimp only [initIterG]
    rw [keys_renameGraph]
    refine hnd.map ?_
    intro a b hab
    simpa using hab
  · dsimp only [initIterG]
    rw [keys_renameGraph]
    refine hnd.map ?_
    intro a b hab
    simpa using hab
  · dsimp only [initIterG]
    intro k hk
    have := hb k hk
    omega
  · dsimp only [initIterG]
    rw [keys_renameGraph]
    intro k hk
    obtain ⟨j, hj, rfl⟩ := List.mem_map.mp hk
    have := hb j hj
    omega
  · dsimp only [initIterG]
    rw [keys_renameGraph]
    intro k hk
    obtain ⟨j, hj, rfl⟩ := List.mem_map.mp hk
    have := hb j hj
    omega
  · dsimp only [initIterG]
    rw [keys_renameGraph, hmap B]
    exact forall₂_lookup_mapPairs (keys g0) (fun k => k + B) hnd
  · dsimp only [initIterG]
    rw [keys_renameGraph, hmap (2 * B)]
    exact forall₂_lookup_mapPairs (keys g0) (fun k => k + 2 * B) hnd

theorem structInv_conclusions (s : IterG) (hinv : StructInv s) :
    s.setupG.length = s.steadyG.length
    ∧ s.cleanupG.length = s.steadyG.length
    ∧ ∀ n ∈ keys s.steadyG,
      (∃ sn, lookupAssoc s.setupMap n = some sn ∧ sn ∈ keys s.setupG)
      ∧ (∃ cn, lookupAssoc s.cleanupMap n = some cn
          ∧ cn ∈ keys s.cleanupG) := by
  refine ⟨?_, ?_, ?_⟩
  · have hl := hinv.setupCorr.length_eq
    unfold keys at hl
    rw [List.length_map, List.length_map] at hl
    exact hl.symm
  · have hl := hinv.cleanupCorr.length_eq
    unfold keys at hl
    rw [List.length_map, List.length_map] at hl
    exact hl.symm
  · intro n hn
    constructor
    · obtain ⟨b, hb, hr⟩ := forall₂_mem_left _ _ n hinv.setupCorr hn
      exact ⟨b, hr, hb⟩
    · obtain ⟨b, hb, hr⟩ := forall₂_mem_left _ _ n hinv.cleanupCorr hn
      exact ⟨b, hr, hb⟩

/-- C1: starting from a freshly constructed engine (three structurally
identical graphs paired node-by-node), after any sequence of mirrored node
creations (`call_function`, `placeholder`) and successful mirrored
erasures (`erase_node`) performed while not frozen, every node in the
steady graph has exactly one counterpart recorded in the setup graph and
exactly one in the cleanup graph (the maps are looked up functionally, so
the recorded counterpart is unique), and the three graphs contain equal
numbers of nodes. -/
theorem structural_correspondence (g0 : Graph) (B : Nat) (s : IterG)
    (hnd : (keys g0).Nodup) (hb : ∀ k ∈ keys g0, k < B)
    (hreach : ReachableFrom (initIterG g0 B) s) :
    s.setupG.length = s.steadyG.length
    ∧ s.cleanupG.length = s.steadyG.length
    ∧ ∀ n ∈ keys s.steadyG,
      (∃ sn, lookupAssoc s.setupMap n = some sn ∧ sn ∈ keys s.setupG)
      ∧ (∃ cn, lookupAssoc s.cleanupMap n = some cn
          ∧ cn ∈ keys s.cleanupG) := by
  have hinv : StructInv s := by
    induction hreach with
    | refl => exact structInv_init g0 B hnd hb
    | tail hsteps hstep ih =>
      cases hstep with
      | callFn t args => exact structInv_call_function _ t args ih
      | ph name => exact structInv_placeholder _ name ih
      | erase n hok => exact structInv_erase _ n hok ih
  exact structInv_conclusions s hinv

theorem structural_correspondence_witness :
    ((keys c1Base).Nodup ∧ (∀ k ∈ keys c1Base, k < 10)
      ∧ ReachableFrom (initIterG c1Base 10)
          ((((initIterG c1Base 10).call_function (Target.fn 5)
              [Arg.node 0]).1).erase_node 31).1)
    ∧ (((((initIterG c1Base 10).call_function (Target.fn 5)
            [Arg.node 0]).1).erase_node 31).1.setupG.length
          = ((((initIterG c1Base 10).call_function (Target.fn 5)
              [Arg.node 0]).1).erase_node 31).1.steadyG.length
      ∧ ((((initIterG c1Base 10).call_function (Target.fn 5)
            [Arg.node 0]).1).erase_node 31).1.cleanupG.length
          = ((((initIterG c1Base 10).call_function (Target.fn 5)
              [Arg.node 0]).1).erase_node 31).1.steadyG.length
      ∧ ∀ n ∈ keys ((((initIterG c1Base 10).call_function (Target.fn 5)
            [Arg.node 0]).1).erase_node 31).1.steadyG,
          (∃ sn, lookupAssoc ((((initIterG c1Base 10).call_function
                (Target.fn 5) [Arg.node 0]).1).erase_node 31).1.setupMap n
              = some sn
            ∧ sn ∈ keys ((((initIterG c1Base 10).call_function
                (Target.fn 5) [Arg.node 0]).1).erase_node 31).1.setupG)
          ∧ (∃ cn, lookupAssoc ((((initIterG c1Base 10).call_function
                (Target.fn 5) [Arg.node 0]).1).erase_node 31).1.cleanupMap n
              = some cn
            ∧ cn ∈ keys ((((initIterG c1Base 10).call_function
                (Target.fn 5) [Arg.node 0]).1).erase_node 31).1.cleanupG)) := by
  have hr : ReachableFrom (initIterG c1Base 10)
      ((((initIterG c1Base 10).call_function (Target.fn 5)
          [Arg.node 0]).1).erase_node 31).1 :=
    Relation.ReflTransGen.tail
      (Relation.ReflTransGen.single
        (MirrorStep.callFn (initIterG c1Base 10) (Target.fn 5)
          [Arg.node 0]))
      (MirrorStep.erase _ 31 (by decide))
  exact ⟨⟨by decide, by decide, hr⟩,
    structural_correspondence c1Base 10 _ (by decide) (by decide) hr⟩

end IterGraphModel
